import Mathlib

/-!
Verification development for the QIR-to-Quil specialization pass
(`qcs-sdk-qir`).  The definitions below are a shallow embedding of the
pattern-recognition and lowering engine:

* the shot-count pattern matcher over LLVM instruction streams
  (`src/transform/shot_count_block/pattern.rs`),
* the Quil program builder (`src/transform/shot_count_block/quil.rs`),
* the unitary matcher (`src/transform/unitary/pattern.rs`, `quil.rs`),
* safe instruction deletion (`src/interop/instruction.rs`),
* quantum-function parameter validation (`src/context/context.rs`),
* the `wrap_in_shots` runtime-call emission (`src/interop/call.rs`).

LLVM values are embedded as follows: an instruction is an `Instr` with a
unique SSA `id` and an `Opcode` carrying the operands the matchers
inspect; call arguments are carried in the decoded form produced by
`get_qis_function_arguments` (`OperationArgument`); integer operands
record their sign-extended constant value when they are constants.
`phi` incoming operands are not modelled because the matchers never read
them.  Machine integers are modelled as `Nat`/`Int`, with explicit
`% 2 ^ w` where the source truncates.
-/

deriving instance DecidableEq for Except

namespace QcsSdkQir

/-- Embeds `inkwell::values::FloatValue`: either a constant double
(`get_constant` returns its value, abstracted to `Int`) or a
non-constant SSA value identified by its defining instruction. -/
inductive FloatVal
  | constVal (value : Int)
  | ssa (id : Nat)
deriving DecidableEq, Repr

/-- Embeds `FloatValue::get_constant`. -/
def FloatVal.get_constant : FloatVal → Option Int
  | .constVal value => some value
  | .ssa _ => none

/-- Embeds `FloatValue::is_const`. -/
def FloatVal.is_const (v : FloatVal) : Bool :=
  v.get_constant.isSome

/-- Embeds `interop::instruction::OperationArgument`: the decoded
argument of a `__quantum__qis__*` intrinsic call. -/
inductive OperationArgument
  | qubit (index : Nat)
  | result (index : Nat)
  | parameter (value : FloatVal)
  | instructionArg (id : Nat)
deriving DecidableEq, Repr

/-- Embeds an LLVM operand as inspected by the shot-count matcher:
`intConst v` is a constant `IntValue` whose `get_sign_extended_constant`
is `v`; `intInst id` is a non-constant `IntValue` defined by instruction
`id`; `blockRef` is a `BasicBlock` operand. -/
inductive Operand
  | intConst (value : Int)
  | intInst (id : Nat)
  | blockRef (name : String)
  | otherOp
deriving DecidableEq, Repr

/-- Embeds `BasicValue::as_instruction_value` on an operand: only a
value defined by an instruction yields its defining instruction. -/
def Operand.as_instruction_id : Operand → Option Nat
  | .intInst id => some id
  | _ => none

/-- Embeds the opcode plus the operand structure read by the matchers.
For `br`, which LLVM stores as `[condition, false-dest, true-dest]`,
operand 1 is the else-target and operand 2 the then-target.  A `call`
carries the callee name (the final operand of an LLVM call) and its
decoded arguments. -/
inductive Opcode
  | phi
  | add (op0 op1 : Operand)
  | icmp (op0 op1 : Operand)
  | br (condition : Operand) (elseTarget thenTarget : String)
  | call (callee : String) (args : List OperationArgument)
  | ret
  | otherInstr
deriving DecidableEq, Repr

/-- Embeds `inkwell::values::InstructionValue`: a unique SSA id plus the
opcode/operand structure. -/
structure Instr where
  id : Nat
  opcode : Opcode
deriving DecidableEq, Repr

/-- Embeds `interop::instruction::operand_to_integer`: extract the
operand when it is an `IntValue` (constant or instruction-defined). -/
def operand_to_integer : Operand → Option Operand
  | .intConst value => some (.intConst value)
  | .intInst id => some (.intInst id)
  | _ => none

/-- Embeds `interop::instruction::integer_value_to_u64`:
`get_sign_extended_constant` followed by `u64::try_from`. -/
def integer_value_to_u64 : Operand → Option Nat
  | .intConst value => if value < 0 then none else some value.toNat
  | _ => none

/-- Decides whether an operand is an LLVM `IntValue`
(`BasicValueEnum::IntValue`), constant or not. -/
def Operand.is_int_value : Operand → Bool
  | .intConst _ => true
  | .intInst _ => true
  | _ => false

/-- Source of an SSA use from a decoded call argument: instruction-typed
pointer arguments and non-constant float parameters use their defining
instruction. -/
def OperationArgument.used_instruction_id : OperationArgument → Option Nat
  | .instructionArg id => some id
  | .parameter (.ssa id) => some id
  | _ => none

/-- Use edges of an instruction, as `(operand slot, used instruction
id)` pairs in slot order. -/
def Instr.use_slots (i : Instr) : List (Nat × Nat) :=
  match i.opcode with
  | .add op0 op1 =>
    [(0, op0), (1, op1)].filterMap fun p => (p.2.as_instruction_id).map (fun v => (p.1, v))
  | .icmp op0 op1 =>
    [(0, op0), (1, op1)].filterMap fun p => (p.2.as_instruction_id).map (fun v => (p.1, v))
  | .br condition _ _ =>
    [(0, condition)].filterMap fun p => (p.2.as_instruction_id).map (fun v => (p.1, v))
  | .call _ args =>
    args.enum.filterMap fun p => (p.2.used_instruction_id).map (fun v => (p.1, v))
  | _ => []

/-- Operand count of an instruction (call: arguments plus callee). -/
def Instr.num_operands (i : Instr) : Nat :=
  match i.opcode with
  | .add _ _ => 2
  | .icmp _ _ => 2
  | .br _ _ _ => 3
  | .call _ args => args.length + 1
  | _ => 0

/-- Embeds `InstructionValue::get_operand_use(slot)`: a `Use` is
identified by the pair (user instruction id, operand slot). -/
def get_operand_use (i : Instr) (slot : Nat) : Option (Nat × Nat) :=
  if slot < i.num_operands then some (i.id, slot) else none

/-- Embeds `BasicValue::get_first_use` for the value defined by
instruction `value_id`, with the use list ordered by position in the
block and then by operand slot. -/
def get_first_use (block : List Instr) (value_id : Nat) : Option (Nat × Nat) :=
  block.findSome? fun i =>
    (i.use_slots.find? (fun s => s.2 == value_id)).map (fun s => (i.id, s.1))

/-- Embeds `crate::RecordedOutput`. -/
inductive RecordedOutput
  | shotStart
  | shotEnd
  | resultReadoutOffset (offset : Nat)
  | boolReadoutOffset (offset : Nat)
  | integerReadoutOffset (offset : Nat)
  | doubleReadoutOffset (offset : Nat)
  | tupleStart
  | tupleEnd
  | arrayStart
  | arrayEnd
deriving DecidableEq, Repr

/-- Embeds `quil_rs::instruction::GateModifier` (the two used). -/
inductive GateModifier
  | dagger
  | controlled
deriving DecidableEq, Repr

/-- Embeds `quil_rs::instruction::MemoryReference`. -/
structure MemoryReference where
  name : String
  index : Nat
deriving DecidableEq, Repr

/-- Embeds `quil_rs::expression::Expression` (the two constructors the
pass emits; the numeric literal value is the abstracted double). -/
inductive Expression
  | number (value : Int)
  | address (reference : MemoryReference)
deriving DecidableEq, Repr

/-- Embeds `quil_rs::instruction::ScalarType` (the two used). -/
inductive ScalarType
  | bit
  | real
deriving DecidableEq, Repr

/-- Embeds the Quil instructions the pass emits.  `resetAll` is
`Reset { qubit: None }`; qubits are `Qubit::Fixed` indices. -/
inductive QuilInstruction
  | gate (name : String) (parameters : List Expression) (qubits : List Nat)
      (modifiers : List GateModifier)
  | measurement (qubit : Nat) (target : MemoryReference)
  | declaration (name : String) (data_type : ScalarType) (length : Nat)
  | resetAll
  | pragma (name : String) (arguments : List String)
deriving DecidableEq, Repr

/-- Decides whether a Quil instruction is a memory declaration. -/
def QuilInstruction.is_declaration : QuilInstruction → Bool
  | .declaration _ _ _ => true
  | _ => false

/-- Embeds `quil_rs::Program` at the interface the pass uses: memory
regions are keyed by name (as in the source's region map), the other
instructions form the body in insertion order. -/
structure Program where
  memory_regions : List (String × ScalarType × Nat) := []
  instructions : List QuilInstruction := []
deriving DecidableEq, Repr

/-- Embeds `Program::add_instruction`: a declaration is routed into the
region map (replacing an existing region of the same name), anything
else is appended to the body. -/
def Program.add_instruction (p : Program) (i : QuilInstruction) : Program :=
  match i with
  | .declaration name data_type length =>
    if (p.memory_regions.find? (fun r => r.1 == name)).isSome then
      { p with memory_regions :=
          p.memory_regions.map (fun r => if r.1 == name then (name, data_type, length) else r) }
    else
      { p with memory_regions := p.memory_regions ++ [(name, data_type, length)] }
  | _ => { p with instructions := p.instructions ++ [i] }

/-- Embeds `Program::body_instructions`. -/
def Program.body_instructions (p : Program) : List QuilInstruction :=
  p.instructions

/-- Embeds `Program::to_instructions(true)`: declarations first, then
the body. -/
def Program.to_instructions (p : Program) : List QuilInstruction :=
  p.memory_regions.map (fun r => QuilInstruction.declaration r.1 r.2.1 r.2.2) ++ p.instructions

/-- Looks up a declared memory region by name. -/
def Program.region (p : Program) (name : String) : Option (ScalarType × Nat) :=
  (p.memory_regions.find? (fun r => r.1 == name)).map (fun r => r.2)

/-- Embeds `transform::PARAMETER_MEMORY_REGION_NAME`. -/
def PARAMETER_MEMORY_REGION_NAME : String := "__qir_param"

/-- Embeds the error cases surfaced by the engine (the source uses
`eyre` reports; each constructor corresponds to one distinct `eyre!`
site or error condition named by the specification). -/
inductive TranspileError
  | unmeasuredResultRead (result_index : Nat)
  | malformedReadResult
  | unimplementedRecordType (record_type : String)
  | malformedRecordArguments (record_type : String)
  | qisArgumentMismatch (index : Nat) (function_name : String)
  | noConstantValue
  | invalidShotCount
  | expectedIntegerOperand
  | malformedLoopTerminator
  | loopStartMismatch
  | nestedFunctionCall (function_name : String)
  | forbiddenClassicalInstruction (instruction_id : Nat)
  | invalidUnitarySignature
  | wrongBasicBlockCount (count : Nat)
  | patternNotDetected
deriving DecidableEq, Repr

/-- Consumes an optional literal chunk of an intrinsic name (one of
the regex groups `(__ctl)?`, `(__adj)?`, `(__body)?`).  Character lists
are used so the matching is by structural recursion. -/
def strip_literal (s token : List Char) : List Char × Bool :=
  if token.isPrefixOf s then (s.drop token.length, true) else (s, false)

/-- Embeds `QIS_INTRINSIC_REGEX`
(`^__quantum__qis__(?P<operation>[^_]+)(?P<controlled>__ctl)?(?P<adjoint>__adj)?(__body)?$`).
Returns `(operation, controlled, adjoint)` on a match.  The `[^_]+`
group is the maximal run of non-underscore characters after the
prefix; because every later group begins with an underscore, the
greedy split is the only possible one. -/
def parse_qis_intrinsic (name : String) : Option (String × Bool × Bool) :=
  let chars := name.data
  if "__quantum__qis__".data.isPrefixOf chars then
    let rest := chars.drop 16
    let operation := rest.takeWhile (fun c => c != '_')
    if operation.isEmpty then none
    else
      let rem0 := rest.drop operation.length
      let (rem1, controlled) := strip_literal rem0 "__ctl".data
      let (rem2, adjoint) := strip_literal rem1 "__adj".data
      let (rem3, _) := strip_literal rem2 "__body".data
      if rem3.isEmpty then some (String.mk operation, controlled, adjoint) else none
  else none

/-- Embeds `RT_RECORD_OUTPUT_INTRINSIC_REGEX`
(`^__quantum__rt__(?P<record_type>.+)_record_output$`): the captured
`record_type` is everything between the fixed ends, non-empty. -/
def parse_rt_record_output (name : String) : Option String :=
  let chars := name.data
  let pre := "__quantum__rt__".data
  let suf := "_record_output".data
  if pre.isPrefixOf chars && suf.isSuffixOf chars
      && decide (pre.length + suf.length < chars.length) then
    some (String.mk ((chars.drop pre.length).take (chars.length - pre.length - suf.length)))
  else none

/-- Embeds `ShotCountPatternMatchContext`.  `initial_instruction` holds
the id of the recorded loop phi (the source also stores a hash of it,
which no later code reads and is therefore not modelled).  The
`read_result_mapping` hash map is embedded as an association list in
insertion order, which supports the operations used on it: `len`,
`get`, and `entry().or_insert_with(..)`. -/
structure ShotCountPatternMatchContext where
  initial_instruction : Option Nat := none
  quil_program : Program := {}
  recorded_output : List RecordedOutput := []
  shot_count : Option Nat := none
  instructions_to_remove : List Nat := []
  next_basic_block : Option String := none
  read_result_mapping : List (Nat × Nat) := []
  readout_instruction_mapping : List (Nat × Nat) := []
  parameters : List FloatVal := []
  use_active_reset : Bool := false
deriving DecidableEq, Repr

/-- Embeds `HashMap::get` on the result mapping. -/
def mapping_lookup (mapping : List (Nat × Nat)) (key : Nat) : Option Nat :=
  (mapping.find? (fun entry => entry.1 == key)).map (fun entry => entry.2)

/-- Embeds `mapping.entry(key).or_insert_with(|| fresh_value)`:
returns the value stored under `key` and the updated mapping. -/
def entry_or_insert (mapping : List (Nat × Nat)) (key fresh_value : Nat) :
    Nat × List (Nat × Nat) :=
  match mapping_lookup mapping key with
  | some index => (index, mapping)
  | none => (fresh_value, mapping ++ [(key, fresh_value)])

/-- Embeds `pattern::get_quil_parameter_index`.  The source takes the
whole pattern context but reads and writes only its `parameters` field,
which is passed explicitly here. -/
def get_quil_parameter_index (parameters : List FloatVal) (float_value : FloatVal) :
    Nat × List FloatVal :=
  match parameters.findIdx? (fun el => el == float_value) with
  | some index => (index, parameters)
  | none => (parameters.length, parameters ++ [float_value])

/-- Embeds `pattern::get_quil_parameter_expression`: a constant float is
inlined as a number, a non-constant float is read from the
`__qir_param` memory region at its assigned slot. -/
def get_quil_parameter_expression (parameters : List FloatVal) (float_value : FloatVal) :
    Expression × List FloatVal :=
  match float_value.get_constant with
  | some constant => (.number constant, parameters)
  | none =>
    let result := get_quil_parameter_index parameters float_value
    (.address { name := PARAMETER_MEMORY_REGION_NAME, index := result.1 }, result.2)

/-- Embeds the `match_qis_argument!(Parameter, ..)` macro arm. -/
def match_parameter_argument (arguments : List OperationArgument) (index : Nat)
    (function_name : String) : Except TranspileError FloatVal :=
  match arguments[index]? with
  | some (.parameter contents) => .ok contents
  | _ => .error (.qisArgumentMismatch index function_name)

/-- Embeds the `match_qis_argument!(Qubit, ..)` macro arm. -/
def match_qubit_argument (arguments : List OperationArgument) (index : Nat)
    (function_name : String) : Except TranspileError Nat :=
  match arguments[index]? with
  | some (.qubit contents) => .ok contents
  | _ => .error (.qisArgumentMismatch index function_name)

/-- Embeds the `match_qis_argument!(Result, ..)` macro arm. -/
def match_result_argument (arguments : List OperationArgument) (index : Nat)
    (function_name : String) : Except TranspileError Nat :=
  match arguments[index]? with
  | some (.result contents) => .ok contents
  | _ => .error (.qisArgumentMismatch index function_name)

/-- Collects the gate parameter expressions for argument slots
`0..parameter_count`, threading the parameter slot list. -/
def collect_gate_parameters (parameters : List FloatVal)
    (arguments : List OperationArgument) (function_name : String) :
    Nat → Except TranspileError (List Expression × List FloatVal)
  | 0 => .ok ([], parameters)
  | n + 1 =>
    match collect_gate_parameters parameters arguments function_name n with
    | .error e => .error e
    | .ok (exprs, parameters2) =>
      match match_parameter_argument arguments n function_name with
      | .error e => .error e
      | .ok float_value =>
        let result := get_quil_parameter_expression parameters2 float_value
        .ok (exprs ++ [result.1], result.2)

/-- Collects the gate qubit indices for argument slots
`parameter_count..parameter_count + qubit_count`. -/
def collect_gate_qubits (arguments : List OperationArgument) (function_name : String)
    (parameter_count : Nat) : Nat → Except TranspileError (List Nat)
  | 0 => .ok []
  | n + 1 =>
    match collect_gate_qubits arguments function_name parameter_count n with
    | .error e => .error e
    | .ok qubits =>
      match match_qubit_argument arguments (parameter_count + n) function_name with
      | .error e => .error e
      | .ok qubit => .ok (qubits ++ [qubit])

/-- Embeds `pattern::add_gate_instruction` (shot-count matcher). -/
def add_gate_instruction (ctx : ShotCountPatternMatchContext)
    (arguments : List OperationArgument) (function_name name : String)
    (adjoint controlled : Bool) (parameter_count qubit_count : Nat) :
    Except TranspileError ShotCountPatternMatchContext :=
  match collect_gate_parameters ctx.parameters arguments function_name parameter_count with
  | .error e => .error e
  | .ok (parameters, parameter_list) =>
    match collect_gate_qubits arguments function_name parameter_count qubit_count with
    | .error e => .error e
    | .ok qubits =>
      let modifiers :=
        (if adjoint then [GateModifier.dagger] else [])
          ++ (if controlled then [GateModifier.controlled] else [])
      .ok { ctx with
            parameters := parameter_list,
            quil_program := ctx.quil_program.add_instruction
              (.gate name parameters qubits modifiers) }

/-- Dispatch table of the `match operation` arms in
`pattern::quantum_instruction` that lower to a plain gate: operation
name to (Quil gate name, parameter arity, qubit arity). -/
def gate_table : String → Option (String × Nat × Nat)
  | "swap" => some ("SWAP", 0, 2)
  | "toffoli" => some ("CCNOT", 0, 3)
  | "cnot" => some ("CNOT", 0, 2)
  | "cz" => some ("CZ", 0, 2)
  | "h" => some ("H", 0, 1)
  | "rx" => some ("RX", 1, 1)
  | "ry" => some ("RY", 1, 1)
  | "rz" => some ("RZ", 1, 1)
  | "s" => some ("S", 0, 1)
  | "t" => some ("T", 0, 1)
  | "x" => some ("X", 0, 1)
  | "y" => some ("Y", 0, 1)
  | "z" => some ("Z", 0, 1)
  | _ => none

/-- Appends an instruction id to `instructions_to_remove` (the push
performed after a matched arm). -/
def push_instruction_to_remove (ctx : ShotCountPatternMatchContext) (i : Instr) :
    ShotCountPatternMatchContext :=
  { ctx with instructions_to_remove := ctx.instructions_to_remove ++ [i.id] }

/-- Embeds `pattern::quantum_instruction` (shot-count matcher).
Returns `.ok none` when the instruction is not a recognized QIS call
(the `PatternResult` `None` case), `.ok (some ctx)` when matched. -/
def quantum_instruction (ctx : ShotCountPatternMatchContext) (instruction : Instr) :
    Except TranspileError (Option ShotCountPatternMatchContext) :=
  match instruction.opcode with
  | .call callee arguments =>
    match parse_qis_intrinsic callee with
    | some (operation, controlled, adjoint) =>
      if operation == "reset" then
        .ok (some (push_instruction_to_remove { ctx with use_active_reset := true } instruction))
      else if operation == "mz" then
        match match_qubit_argument arguments 0 callee with
        | .error e => .error e
        | .ok qubit =>
          match match_result_argument arguments 1 callee with
          | .error e => .error e
          | .ok result =>
            let next_ro_index := ctx.read_result_mapping.length
            let entry := entry_or_insert ctx.read_result_mapping result next_ro_index
            let ctx2 := { ctx with
              read_result_mapping := entry.2,
              quil_program := ctx.quil_program.add_instruction
                (.measurement qubit { name := "ro", index := entry.1 }) }
            .ok (some (push_instruction_to_remove ctx2 instruction))
      else
        match gate_table operation with
        | some (name, parameter_count, qubit_count) =>
          match add_gate_instruction ctx arguments callee name adjoint controlled
              parameter_count qubit_count with
          | .error e => .error e
          | .ok ctx2 => .ok (some (push_instruction_to_remove ctx2 instruction))
        | none => .ok none
    | none =>
      if callee == "__quantum__qis__read_result__body" then
        match arguments.head? with
        | some (.result result_index) =>
          match mapping_lookup ctx.read_result_mapping result_index with
          | none => .error (.unmeasuredResultRead result_index)
          | some ro_index =>
            let ctx2 := { ctx with
              readout_instruction_mapping :=
                ctx.readout_instruction_mapping ++ [(ro_index, instruction.id)] }
            .ok (some (push_instruction_to_remove ctx2 instruction))
        | _ => .error .malformedReadResult
      else .ok none
  | _ => .ok none

/-- Embeds `pattern::rt_record_instruction` (shot-count matcher). -/
def rt_record_instruction (ctx : ShotCountPatternMatchContext) (instruction : Instr) :
    Except TranspileError (Option ShotCountPatternMatchContext) :=
  match instruction.opcode with
  | .call callee arguments =>
    match parse_rt_record_output callee with
    | some record_type =>
      if record_type == "result" then
        match arguments.head? with
        | some (.result result_index) =>
          let next_ro_index := ctx.read_result_mapping.length
          let entry := entry_or_insert ctx.read_result_mapping result_index next_ro_index
          .ok (some { ctx with
            read_result_mapping := entry.2,
            recorded_output :=
              ctx.recorded_output ++ [RecordedOutput.resultReadoutOffset entry.1] })
        | _ => .error (.malformedRecordArguments record_type)
      else if record_type == "bool" || record_type == "integer" || record_type == "double" then
        .error (.unimplementedRecordType record_type)
      else if record_type == "tuple_start" then
        .ok (some { ctx with recorded_output := ctx.recorded_output ++ [RecordedOutput.tupleStart] })
      else if record_type == "tuple_end" then
        .ok (some { ctx with recorded_output := ctx.recorded_output ++ [RecordedOutput.tupleEnd] })
      else if record_type == "array_start" then
        .ok (some { ctx with recorded_output := ctx.recorded_output ++ [RecordedOutput.arrayStart] })
      else if record_type == "array_end" then
        .ok (some { ctx with recorded_output := ctx.recorded_output ++ [RecordedOutput.arrayEnd] })
      else .ok none
    | none => .ok none
  | _ => .ok none

/-- Embeds `pattern::shot_count_loop_start`: only a `phi` matches; its
id is recorded as `initial_instruction`.  The source also stores an
unused hash of the instruction. -/
def shot_count_loop_start (ctx : ShotCountPatternMatchContext) (instruction : Instr) :
    Option ShotCountPatternMatchContext :=
  match instruction.opcode with
  | .phi => some { ctx with initial_instruction := some instruction.id }
  | _ => none

/-- Decides whether an opcode is `Br`. -/
def is_br_opcode : Opcode → Bool
  | .br _ _ _ => true
  | _ => false

/-- Embeds `final_instruction.get_operand(1)` on a branch: the
else-target basic block. -/
def br_else_target : Opcode → Option String
  | .br _ elseTarget _ => some elseTarget
  | _ => none

/-- Embeds the body of `pattern::shot_count_loop_end` that runs under
`if let Some(next_instruction) = instruction.get_next_instruction()`:
inspect the (candidate) `icmp` and the following branch.  A returned
context corresponds to the source reaching its
`return Ok(Some(next_instruction.get_next_instruction(), ()))`;
an error corresponds to one of the `return Err(..)` sites. -/
def shot_count_loop_end_checks (block : List Instr) (ctx : ShotCountPatternMatchContext)
    (next_instruction : Instr) (rest2 : List Instr) :
    Except TranspileError ShotCountPatternMatchContext :=
  match next_instruction.opcode with
  | .icmp cop0 cop1 =>
    if cop0.is_int_value then
      let matches_shot_count_loop_start :=
        match ctx.initial_instruction with
        | some phi_id => cop0.as_instruction_id == some phi_id
        | none => false
      if matches_shot_count_loop_start then
        match cop1 with
        | .intConst operand_value =>
          if operand_value < 0 then .error .invalidShotCount
          else
            match rest2 with
            | [] => .error .malformedLoopTerminator
            | final_instruction :: _ =>
              let branching_on_loop_variable :=
                get_first_use block next_instruction.id == get_operand_use final_instruction 0
              if is_br_opcode final_instruction.opcode && branching_on_loop_variable then
                let ctx2 := { ctx with shot_count := some operand_value.toNat }
                match br_else_target final_instruction.opcode with
                | some target => .ok { ctx2 with next_basic_block := some target }
                | none => .ok ctx2
              else .error .malformedLoopTerminator
        | .intInst _ => .error .noConstantValue
        | _ => .error .expectedIntegerOperand
      else .error .loopStartMismatch
    else .ok ctx
  | _ => .ok ctx

/-- Embeds `pattern::shot_count_loop_end`.  Triggered by an `add` whose
second operand is the integer constant 1; `rest` is the stream after
the `add`. -/
def shot_count_loop_end (block : List Instr) (ctx : ShotCountPatternMatchContext)
    (instruction : Instr) (rest : List Instr) :
    Except TranspileError (Option ShotCountPatternMatchContext) :=
  match instruction.opcode with
  | .add _ op1 =>
    let shot_count_increment_is_1 :=
      ((operand_to_integer op1).bind integer_value_to_u64) == some 1
    if shot_count_increment_is_1 then
      match rest with
      | [] => .ok none
      | next_instruction :: rest2 =>
        match shot_count_loop_end_checks block ctx next_instruction rest2 with
        | .error e => .error e
        | .ok ctx2 => .ok (some ctx2)
    else .ok none
  | _ => .ok none

/-- Callback invoked for an unvisited intramodule function call
(`function_call_callback` in the source), taking the function name and
the extended visited list. -/
abbrev FunctionCallCallback := String → List String → Except TranspileError Unit

/-- Embeds the function-recursion candidate of the driver: the source
reads `instruction.get_operand(0)` of a call, which is the callee only
when the call has no arguments (LLVM stores call arguments first and
the callee last); decoded qubit/result/parameter arguments are
anonymous constants, never named module functions. -/
def function_call_target (i : Instr) : Option String :=
  match i.opcode with
  | .call callee args => if args.isEmpty then some callee else none
  | _ => none

/-- Outcome of one iteration of the driver loop in
`ShotCountPatternMatchContext::from_basic_block`. -/
inductive StepOutcome
  | continueWith (ctx : ShotCountPatternMatchContext)
  | stop (ctx : ShotCountPatternMatchContext)
  | failure (e : TranspileError)
deriving DecidableEq, Repr

/-- Embeds one iteration of the `while let Some(instruction)` loop of
`from_basic_block`: try loop start (only before it is found), then
quantum instruction, rt record, loop end (which breaks the loop), then
the intramodule-call recursion, otherwise leave the instruction in
place and advance. -/
def from_basic_block_step (module_functions : List String) (cb : FunctionCallCallback)
    (block : List Instr) (visited_functions : List String)
    (ctx : ShotCountPatternMatchContext) (instruction : Instr) (rest : List Instr) :
    StepOutcome :=
  if ctx.initial_instruction.isNone then
    match shot_count_loop_start ctx instruction with
    | some ctx2 =>
      .continueWith { ctx2 with recorded_output := ctx2.recorded_output ++ [RecordedOutput.shotStart] }
    | none => .continueWith ctx
  else
    match quantum_instruction ctx instruction with
    | .error e => .failure e
    | .ok (some ctx2) => .continueWith ctx2
    | .ok none =>
      match rt_record_instruction ctx instruction with
      | .error e => .failure e
      | .ok (some ctx2) => .continueWith ctx2
      | .ok none =>
        match shot_count_loop_end block ctx instruction rest with
        | .error e => .failure e
        | .ok (some ctx2) =>
          .stop { ctx2 with recorded_output := ctx2.recorded_output ++ [RecordedOutput.shotEnd] }
        | .ok none =>
          match function_call_target instruction with
          | some function_name =>
            if visited_functions.contains function_name then .continueWith ctx
            else if module_functions.contains function_name then
              match cb function_name (visited_functions ++ [function_name]) with
              | .error e => .failure e
              | .ok () => .continueWith ctx
            else .continueWith ctx
          | none => .continueWith ctx

/-- Embeds the driver loop of `from_basic_block` over the remaining
instruction stream. -/
def from_basic_block_go (module_functions : List String) (cb : FunctionCallCallback)
    (block : List Instr) (visited_functions : List String) :
    ShotCountPatternMatchContext → List Instr →
    Except TranspileError ShotCountPatternMatchContext
  | ctx, [] => .ok ctx
  | ctx, instruction :: rest =>
    match from_basic_block_step module_functions cb block visited_functions ctx instruction rest with
    | .continueWith ctx2 =>
      from_basic_block_go module_functions cb block visited_functions ctx2 rest
    | .stop ctx2 => .ok ctx2
    | .failure e => .error e

/-- Embeds `ShotCountPatternMatchContext::from_basic_block`. -/
def from_basic_block (module_functions : List String) (block : List Instr)
    (visited_functions : List String) (cb : FunctionCallCallback) :
    Except TranspileError ShotCountPatternMatchContext :=
  from_basic_block_go module_functions cb block visited_functions {} block

/-- Embeds `ShotCountPatternMatchContext::get_dynamic_parameters`. -/
def ShotCountPatternMatchContext.get_dynamic_parameters
    (ctx : ShotCountPatternMatchContext) : List FloatVal :=
  ctx.parameters.filter (fun v => !v.is_const)

/-- Embeds `ShotCountPatternMatchContext::get_program_data`. -/
def ShotCountPatternMatchContext.get_program_data
    (ctx : ShotCountPatternMatchContext) : Option (Program × Nat) :=
  match ctx.shot_count with
  | some shots =>
    if ctx.quil_program.body_instructions.length == 0 then none
    else some (ctx.quil_program, shots)
  | none => none

/-- Embeds `quil::fail_on_nested_function_call`. -/
def fail_on_nested_function_call : FunctionCallCallback :=
  fun function_name _ => .error (.nestedFunctionCall function_name)

/-- Embeds `quil::ProgramOutput` (shot-count flavor). -/
structure ProgramOutput where
  program : Program
  shot_count : Nat
  recorded_output : List RecordedOutput
deriving DecidableEq, Repr

/-- Embeds the prepend-via-copy idiom of `build_quil_program`: create a
new program, add the prologue, then re-add every prior instruction. -/
def prepend_instruction_via_copy (prologue : QuilInstruction) (program : Program) : Program :=
  let instructions := program.to_instructions
  let new_program : Program := {}
  let new_program := new_program.add_instruction prologue
  instructions.foldl Program.add_instruction new_program

/-- Embeds `quil::build_quil_program` (shot-count flavor). -/
def build_quil_program (rewiring_pragma : Option String)
    (ctx : ShotCountPatternMatchContext) : Except TranspileError ProgramOutput :=
  match ctx.get_program_data with
  | none => .error .patternNotDetected
  | some (program0, shots) =>
    let program1 := program0.add_instruction
      (.declaration "ro" .bit ctx.read_result_mapping.length)
    let program2 :=
      if !ctx.get_dynamic_parameters.isEmpty then
        program1.add_instruction
          (.declaration PARAMETER_MEMORY_REGION_NAME .real ctx.get_dynamic_parameters.length)
      else program1
    let program3 :=
      if ctx.use_active_reset then prepend_instruction_via_copy .resetAll program2
      else program2
    let program4 :=
      match rewiring_pragma with
      | some value =>
        prepend_instruction_via_copy
          (.pragma "INITIAL_REWIRING" ["\"" ++ value ++ "\""]) program3
      | none => program3
    .ok { program := program4, shot_count := shots, recorded_output := ctx.recorded_output }

namespace Unitary

/-- Embeds `unitary::pattern::UnitaryPatternMatchContext`: the
shot-count context minus `initial_instruction`, `shot_count` and
`next_basic_block`. -/
structure UnitaryPatternMatchContext where
  quil_program : Program := {}
  recorded_output : List RecordedOutput := []
  instructions_to_remove : List Nat := []
  read_result_mapping : List (Nat × Nat) := []
  readout_instruction_mapping : List (Nat × Nat) := []
  parameters : List FloatVal := []
  use_active_reset : Bool := false
deriving DecidableEq, Repr

/-- Embeds `unitary::pattern::add_gate_instruction` (a verbatim copy of
the shot-count one in the source, over the unitary context). -/
def add_gate_instruction (ctx : UnitaryPatternMatchContext)
    (arguments : List OperationArgument) (function_name name : String)
    (adjoint controlled : Bool) (parameter_count qubit_count : Nat) :
    Except TranspileError UnitaryPatternMatchContext :=
  match collect_gate_parameters ctx.parameters arguments function_name parameter_count with
  | .error e => .error e
  | .ok (parameters, parameter_list) =>
    match collect_gate_qubits arguments function_name parameter_count qubit_count with
    | .error e => .error e
    | .ok qubits =>
      let modifiers :=
        (if adjoint then [GateModifier.dagger] else [])
          ++ (if controlled then [GateModifier.controlled] else [])
      .ok { ctx with
            parameters := parameter_list,
            quil_program := ctx.quil_program.add_instruction
              (.gate name parameters qubits modifiers) }

/-- Appends an instruction id to `instructions_to_remove`. -/
def push_instruction_to_remove (ctx : UnitaryPatternMatchContext) (i : Instr) :
    UnitaryPatternMatchContext :=
  { ctx with instructions_to_remove := ctx.instructions_to_remove ++ [i.id] }

/-- Embeds `unitary::pattern::quantum_instruction` (a verbatim copy of
the shot-count one in the source, over the unitary context). -/
def quantum_instruction (ctx : UnitaryPatternMatchContext) (instruction : Instr) :
    Except TranspileError (Option UnitaryPatternMatchContext) :=
  match instruction.opcode with
  | .call callee arguments =>
    match parse_qis_intrinsic callee with
    | some (operation, controlled, adjoint) =>
      if operation == "reset" then
        .ok (some (push_instruction_to_remove { ctx with use_active_reset := true } instruction))
      else if operation == "mz" then
        match match_qubit_argument arguments 0 callee with
        | .error e => .error e
        | .ok qubit =>
          match match_result_argument arguments 1 callee with
          | .error e => .error e
          | .ok result =>
            let next_ro_index := ctx.read_result_mapping.length
            let entry := entry_or_insert ctx.read_result_mapping result next_ro_index
            let ctx2 := { ctx with
              read_result_mapping := entry.2,
              quil_program := ctx.quil_program.add_instruction
                (.measurement qubit { name := "ro", index := entry.1 }) }
            .ok (some (push_instruction_to_remove ctx2 instruction))
      else
        match gate_table operation with
        | some (name, parameter_count, qubit_count) =>
          match add_gate_instruction ctx arguments callee name adjoint controlled
              parameter_count qubit_count with
          | .error e => .error e
          | .ok ctx2 => .ok (some (push_instruction_to_remove ctx2 instruction))
        | none => .ok none
    | none =>
      if callee == "__quantum__qis__read_result__body" then
        match arguments.head? with
        | some (.result result_index) =>
          match mapping_lookup ctx.read_result_mapping result_index with
          | none => .error (.unmeasuredResultRead result_index)
          | some ro_index =>
            let ctx2 := { ctx with
              readout_instruction_mapping :=
                ctx.readout_instruction_mapping ++ [(ro_index, instruction.id)] }
            .ok (some (push_instruction_to_remove ctx2 instruction))
        | _ => .error .malformedReadResult
      else .ok none
  | _ => .ok none

/-- Embeds `unitary::pattern::rt_record_instruction` (a verbatim copy
of the shot-count one in the source, over the unitary context). -/
def rt_record_instruction (ctx : UnitaryPatternMatchContext) (instruction : Instr) :
    Except TranspileError (Option UnitaryPatternMatchContext) :=
  match instruction.opcode with
  | .call callee arguments =>
    match parse_rt_record_output callee with
    | some record_type =>
      if record_type == "result" then
        match arguments.head? with
        | some (.result result_index) =>
          let next_ro_index := ctx.read_result_mapping.length
          let entry := entry_or_insert ctx.read_result_mapping result_index next_ro_index
          .ok (some { ctx with
            read_result_mapping := entry.2,
            recorded_output :=
              ctx.recorded_output ++ [RecordedOutput.resultReadoutOffset entry.1] })
        | _ => .error (.malformedRecordArguments record_type)
      else if record_type == "bool" || record_type == "integer" || record_type == "double" then
        .error (.unimplementedRecordType record_type)
      else if record_type == "tuple_start" then
        .ok (some { ctx with recorded_output := ctx.recorded_output ++ [RecordedOutput.tupleStart] })
      else if record_type == "tuple_end" then
        .ok (some { ctx with recorded_output := ctx.recorded_output ++ [RecordedOutput.tupleEnd] })
      else if record_type == "array_start" then
        .ok (some { ctx with recorded_output := ctx.recorded_output ++ [RecordedOutput.arrayStart] })
      else if record_type == "array_end" then
        .ok (some { ctx with recorded_output := ctx.recorded_output ++ [RecordedOutput.arrayEnd] })
      else .ok none
    | none => .ok none
  | _ => .ok none

/-- Embeds the `while let Some(instruction)` loop of
`UnitaryPatternMatchContext::from_basic_block`: only quantum and
rt-record instructions are consumed; a `ret` terminates the scan
successfully; anything else is a forbidden classical instruction. -/
def from_basic_block_go :
    UnitaryPatternMatchContext → List Instr → Except TranspileError UnitaryPatternMatchContext
  | ctx, [] => .ok ctx
  | ctx, instruction :: rest =>
    match quantum_instruction ctx instruction with
    | .error e => .error e
    | .ok (some ctx2) => from_basic_block_go ctx2 rest
    | .ok none =>
      match rt_record_instruction ctx instruction with
      | .error e => .error e
      | .ok (some ctx2) => from_basic_block_go ctx2 rest
      | .ok none =>
        if instruction.opcode == .ret then .ok ctx
        else .error (.forbiddenClassicalInstruction instruction.id)

/-- Embeds `UnitaryPatternMatchContext::from_basic_block`. -/
def from_basic_block (block : List Instr) :
    Except TranspileError UnitaryPatternMatchContext :=
  from_basic_block_go {} block

/-- Embeds `UnitaryPatternMatchContext::get_dynamic_parameters`. -/
def UnitaryPatternMatchContext.get_dynamic_parameters
    (ctx : UnitaryPatternMatchContext) : List FloatVal :=
  ctx.parameters.filter (fun v => !v.is_const)

/-- Embeds `unitary::quil::ProgramOutput`. -/
structure UnitaryProgramOutput where
  program : Program
  recorded_output : List RecordedOutput
deriving DecidableEq, Repr

/-- Embeds `unitary::quil::build_quil_program`.  The source wraps the
result in `Result` but never fails (`clippy::unnecessary_wraps`), so
the embedding is total. -/
def build_quil_program (rewiring_pragma : Option String)
    (ctx : UnitaryPatternMatchContext) : UnitaryProgramOutput :=
  let program1 := ctx.quil_program.add_instruction
    (.declaration "ro" .bit ctx.read_result_mapping.length)
  let program2 :=
    if !ctx.get_dynamic_parameters.isEmpty then
      program1.add_instruction
        (.declaration PARAMETER_MEMORY_REGION_NAME .real ctx.get_dynamic_parameters.length)
    else program1
  let program3 :=
    if ctx.use_active_reset then prepend_instruction_via_copy .resetAll program2
    else program2
  let program4 :=
    match rewiring_pragma with
    | some value =>
      prepend_instruction_via_copy
        (.pragma "INITIAL_REWIRING" ["\"" ++ value ++ "\""]) program3
    | none => program3
  { program := program4, recorded_output := ctx.recorded_output }

/-- Embeds the LLVM return type of the candidate entry function as the
unitary signature check needs it: `none` models a void return. -/
inductive LlvmReturnType
  | i64Return
  | otherReturn (description : String)
deriving DecidableEq, Repr

/-- Embeds the function header facts read by
`unitary::quil::transpile_function`. -/
structure UnitaryFunction where
  name : String
  param_count : Nat
  is_var_arg : Bool
  return_type : Option LlvmReturnType
  blocks : List (List Instr)
deriving Repr

/-- Embeds `unitary::quil::transpile_basic_block`. -/
def transpile_basic_block (rewiring_pragma : Option String) (block : List Instr) :
    Except TranspileError UnitaryProgramOutput :=
  match from_basic_block block with
  | .error e => .error e
  | .ok ctx => .ok (build_quil_program rewiring_pragma ctx)

/-- Embeds `unitary::quil::transpile_function`: the function must be
nullary, non-variadic, returning i64 (or void as a legacy extension),
and must have exactly one basic block. -/
def transpile_function (rewiring_pragma : Option String) (function : UnitaryFunction) :
    Except TranspileError UnitaryProgramOutput :=
  if !(function.param_count == 0 && !function.is_var_arg
      && (match function.return_type with
          | none => true
          | some ret_ty => ret_ty == .i64Return)) then
    .error .invalidUnitarySignature
  else
    match function.blocks with
    | [first_block] => transpile_basic_block rewiring_pragma first_block
    | blocks => .error (.wrongBasicBlockCount blocks.length)

end Unitary

/-- Embeds the module-level facts consumed by
`interop::instruction::remove_instructions_in_safe_order`: a live
instruction with its id and the ids of the instructions it uses as
operands.  Removing an instruction from its basic block removes the
uses it holds on its operands. -/
structure ModuleInstr where
  id : Nat
  operands : List Nat
deriving DecidableEq, Repr

/-- Embeds `instr.get_first_use().is_some()` over the live module:
`instruction_id` is used when some live instruction has it as an
operand. -/
def has_use (live : List ModuleInstr) (instruction_id : Nat) : Bool :=
  live.any (fun j => j.operands.contains instruction_id)

/-- Embeds one `instructions.retain(..)` pass of
`remove_instructions_in_safe_order`: traverse the queue in order; an
instruction with a remaining use is retained, one without is removed
from the module (mutating the live set seen by later queue entries).
Returns (live module, retained queue, whether anything was removed). -/
def sweep (live : List ModuleInstr) : List Nat → List ModuleInstr × List Nat × Bool
  | [] => (live, [], false)
  | i :: rest =>
    if has_use live i then
      let result := sweep live rest
      (result.1, i :: result.2.1, result.2.2)
    else
      let live2 := live.filter (fun j => j.id != i)
      let result := sweep live2 rest
      (result.1, result.2.1, true)

/-- Embeds the failure of the source's
`assert!(instructions_removed_in_round, ..)`. -/
inductive RemovalError
  | useCycle
deriving DecidableEq, Repr

/-- Embeds `interop::instruction::remove_instructions_in_safe_order`:
repeatedly sweep the queue; stop when it empties; if an entire sweep
removes nothing while the queue is non-empty, fail (the source panics
through `assert!`, which the specification names `UseCycle`). -/
def remove_instructions_in_safe_order (live : List ModuleInstr) (instructions : List Nat) :
    Except RemovalError (List ModuleInstr) :=
  let result := sweep live instructions
  if result.2.1.isEmpty then .ok result.1
  else if h : result.2.2 = true then
    remove_instructions_in_safe_order result.1 result.2.1
  else .error .useCycle
termination_by instructions.length
decreasing_by
  have key : ∀ (q : List Nat) (lv : List ModuleInstr),
      (sweep lv q).2.1.length ≤ q.length ∧
        ((sweep lv q).2.2 = true → (sweep lv q).2.1.length < q.length) := by
    intro q
    induction q with
    | nil => intro lv; simp [sweep]
    | cons i rest ih =>
      intro lv
      by_cases hu : has_use lv i = true
      · refine ⟨?_, ?_⟩
        · simpa [sweep, hu] using Nat.succ_le_succ (ih lv).1
        · intro hr
          simp only [sweep, hu, if_true] at hr ⊢
          exact Nat.succ_lt_succ ((ih lv).2 hr)
      · refine ⟨?_, ?_⟩
        · simp only [sweep, hu, if_false, List.length_cons]
          exact Nat.le_succ_of_le (ih _).1
        · intro _
          simp only [sweep, hu, if_false, List.length_cons]
          exact Nat.lt_succ_of_le (ih _).1
  exact (key instructions live).2 h

/-- Embeds the LLVM type of a declared function parameter as seen by
`QCSCompilerContext::validate_quantum_fn_params`: any float width is a
`FloatValue`, a pointer records the name of the pointed-to struct (or
that it points to a non-struct type), anything else is some other
basic value. -/
inductive ParamType
  | floatParam (width : Nat)
  | pointerToStruct (struct_name : String)
  | pointerOther (description : String)
  | intParam (width : Nat)
  | otherParam (description : String)
deriving DecidableEq, Repr

/-- Embeds the module facts the validation reads: the opaque struct
types defined in the module and the declared functions with their
parameter types. -/
structure QirModule where
  struct_names : List String
  functions : List (String × List ParamType)
deriving DecidableEq, Repr

/-- Embeds the `allowed_pointer_params` construction: the `Qubit` and
`Result` struct pointer types, for the structs the module defines. -/
def allowed_pointer_params (m : QirModule) : List String :=
  ["Qubit", "Result"].filter (fun s => m.struct_names.contains s)

/-- Decides whether one parameter passes validation: a `FloatValue`
always does; a pointer does exactly when its type is one of the allowed
struct pointer types; everything else fails. -/
def param_is_valid (allowed : List String) : ParamType → Bool
  | .floatParam _ => true
  | .pointerToStruct struct_name => allowed.contains struct_name
  | _ => false

/-- Embeds the `bad_params` collection loop of
`validate_quantum_fn_params`: for every function whose name starts with
`__quantum__qis__`, collect its invalid parameters in order. -/
def collect_bad_params (m : QirModule) : List (String × ParamType) :=
  m.functions.foldl
    (fun acc f =>
      if "__quantum__qis__".data.isPrefixOf f.1.data then
        acc ++ (f.2.filter (fun p => !param_is_valid (allowed_pointer_params m) p)).map
          (fun p => (f.1, p))
      else acc)
    []

/-- Embeds the context-construction error (the offending parameters are
carried, as the source formats them into the report). -/
inductive ContextError
  | quantumFnParamBadType (bad_params : List (String × ParamType))
deriving DecidableEq, Repr

/-- Embeds `QCSCompilerContext::validate_quantum_fn_params`. -/
def validate_quantum_fn_params (m : QirModule) : Except ContextError Unit :=
  if (collect_bad_params m).isEmpty then .ok ()
  else .error (.quantumFnParamBadType (collect_bad_params m))

/-- Embeds `QCSCompilerContext::new_from_data` at the granularity the
claims need: the context is built, then `validate_quantum_fn_params`
runs before the context is returned, hence before any pattern matching
can be attempted on it. -/
def new_from_data (m : QirModule) : Except ContextError QirModule :=
  match validate_quantum_fn_params m with
  | .error e => .error e
  | .ok () => .ok m

/-- Embeds `LLVMConstInt` on an `bit_width`-bit integer type with
`sign_extend = false`: the u64 value is truncated to the type width. -/
def const_int (bit_width : Nat) (value : Nat) : Nat :=
  value % 2 ^ bit_width

/-- Embeds the argument list of the emitted runtime call at the level
the claim needs: the name of the called runtime symbol and the integer
constant passed for the shot count. -/
structure RuntimeShotsCall where
  function_name : String
  shots_argument : Nat
deriving DecidableEq, Repr

/-- Embeds `interop::call::wrap_in_shots`: the u64 shot count is passed
to the runtime as an `i32` integer constant. -/
def wrap_in_shots (shots : Nat) : RuntimeShotsCall :=
  { function_name := "wrap_in_shots", shots_argument := const_int 32 shots }

/-! Specification-side predicates used to state the claims. -/

/-- Specification predicate: an ro mapping is dense when the entry
stored at position `i` carries ro buffer index `i` (so the assigned
indices are exactly `0..N-1` in insertion order) and no QIR result
index occurs twice. -/
def MappingDense (mapping : List (Nat × Nat)) : Prop :=
  mapping.map Prod.snd = List.range mapping.length ∧
    (mapping.map Prod.fst).Nodup

/-- Specification predicate: a Quil program still in the accumulation
phase of matching has no memory regions and no declarations in its
body (declarations are added at emission time). -/
def ProgramAccumulating (p : Program) : Prop :=
  p.memory_regions = [] ∧ ∀ i ∈ p.instructions, i.is_declaration = false

/-- Invariant carried by the shot-count matcher state. -/
def ShotContextInvariant (ctx : ShotCountPatternMatchContext) : Prop :=
  MappingDense ctx.read_result_mapping ∧ ProgramAccumulating ctx.quil_program

/-- Specification predicate: `live'` is obtained from `live` by a
sequence of single instruction removals, each performed only when the
removed instruction has no remaining use in the module at that
moment. -/
inductive SafelyErasable : List ModuleInstr → List ModuleInstr → Prop
  | refl (live : List ModuleInstr) : SafelyErasable live live
  | step (live live2 : List ModuleInstr) (i : Nat) :
      has_use live i = false →
      SafelyErasable (live.filter (fun j => j.id != i)) live2 →
      SafelyErasable live live2

/-! Concrete instruction streams used as inputs for the evaluation
theorems and witnesses. -/

/-- A `__quantum__qis__h__body` call on qubit `q`. -/
def h_call (i q : Nat) : Instr :=
  ⟨i, .call "__quantum__qis__h__body" [.qubit q]⟩

/-- A `__quantum__qis__mz__body` call measuring qubit `q` into result `r`. -/
def mz_call (i q r : Nat) : Instr :=
  ⟨i, .call "__quantum__qis__mz__body" [.qubit q, .result r]⟩

/-- A `__quantum__qis__read_result__body` call on result `r`. -/
def read_result_call (i r : Nat) : Instr :=
  ⟨i, .call "__quantum__qis__read_result__body" [.result r]⟩

/-- A `__quantum__rt__result_record_output` call on result `r`. -/
def record_result_call (i r : Nat) : Instr :=
  ⟨i, .call "__quantum__rt__result_record_output" [.result r]⟩

/-- A `__quantum__qis__rz__body` call with float parameter `f` on qubit `q`. -/
def rz_call (i : Nat) (f : FloatVal) (q : Nat) : Instr :=
  ⟨i, .call "__quantum__qis__rz__body" [.parameter f, .qubit q]⟩

/-- A canonical 1000-shot counted-loop block measuring sparse result
indices 3, 7, 1 (in that order). -/
def sparseShotBlock : List Instr :=
  [⟨0, .phi⟩, h_call 1 0, mz_call 2 0 3, mz_call 3 1 7, mz_call 4 2 1,
   ⟨5, .add (.intInst 0) (.intConst 1)⟩,
   ⟨6, .icmp (.intInst 0) (.intConst 1000)⟩,
   ⟨7, .br (.intInst 6) "exit" "body"⟩]

/-- A block whose first instruction is a (non-phi) QIS call, with the
loop phi appearing only second. -/
def phiAfterCallBlock : List Instr :=
  [h_call 0 0, ⟨1, .phi⟩, h_call 2 0,
   ⟨3, .add (.intInst 1) (.intConst 1)⟩,
   ⟨4, .icmp (.intInst 1) (.intConst 1000)⟩,
   ⟨5, .br (.intInst 4) "exit" "body"⟩]

/-- A counted-loop block in which the `add` increments the constant 7
(not the loop phi), while the `icmp` compares the phi. -/
def constAddBlock : List Instr :=
  [⟨0, .phi⟩, h_call 1 0,
   ⟨2, .add (.intConst 7) (.intConst 1)⟩,
   ⟨3, .icmp (.intInst 0) (.intConst 5)⟩,
   ⟨4, .br (.intInst 3) "exit" "body"⟩]

/-- A counted-loop block whose `icmp` constant is negative. -/
def negativeShotBlock : List Instr :=
  [⟨0, .phi⟩, h_call 1 0,
   ⟨2, .add (.intInst 0) (.intConst 1)⟩,
   ⟨3, .icmp (.intInst 0) (.intConst (-5))⟩,
   ⟨4, .br (.intInst 3) "exit" "body"⟩]

/-- A counted-loop block with shot count `2 ^ 32`. -/
def truncationShotBlock : List Instr :=
  [⟨0, .phi⟩, h_call 1 0,
   ⟨2, .add (.intInst 0) (.intConst 1)⟩,
   ⟨3, .icmp (.intInst 0) (.intConst 4294967296)⟩,
   ⟨4, .br (.intInst 3) "exit" "body"⟩]

/-- A parametric counted-loop block: `RZ` applied with the same SSA
float twice around a constant-float `RZ`. -/
def parametricShotBlock : List Instr :=
  [⟨0, .phi⟩, rz_call 1 (.ssa 100) 0, rz_call 2 (.constVal 3) 0, rz_call 3 (.ssa 100) 0,
   mz_call 4 0 0,
   ⟨5, .add (.intInst 0) (.intConst 1)⟩,
   ⟨6, .icmp (.intInst 0) (.intConst 10)⟩,
   ⟨7, .br (.intInst 6) "exit" "body"⟩]

/-- A unitary block that reads result 5 without measuring it. -/
def unmeasuredReadBlock : List Instr :=
  [read_result_call 0 5, ⟨1, .ret⟩]

/-- A unitary block containing a forbidden classical `add`. -/
def classicalUnitaryBlock : List Instr :=
  [h_call 0 0, ⟨1, .add (.intConst 0) (.intConst 0)⟩, ⟨2, .ret⟩]

/-- A well-formed unitary block (Bell-style prefix on one qubit). -/
def unitaryOkBlock : List Instr :=
  [h_call 0 0, mz_call 1 0 0, record_result_call 2 0, ⟨3, .ret⟩]

/-- A unitary function wrapping `unitaryOkBlock` with a valid
signature. -/
def unitaryOkFunction : Unitary.UnitaryFunction :=
  { name := "main", param_count := 0, is_var_arg := false,
    return_type := none, blocks := [unitaryOkBlock] }

/-- A module declaring `__quantum__qis__foo(float)`: the parameter is a
32-bit float, not a double. -/
def float32Module : QirModule :=
  { struct_names := ["Qubit", "Result"],
    functions := [("__quantum__qis__foo", [.floatParam 32])] }

/-- A module declaring `__quantum__qis__foo(i32)`. -/
def i32Module : QirModule :=
  { struct_names := ["Qubit", "Result"],
    functions := [("__quantum__qis__foo", [.intParam 32])] }

/-! Helper lemmas shared by the claim theorems. -/

theorem mapping_lookup_none_iff (m : List (Nat × Nat)) (k : Nat) :
    mapping_lookup m k = none ↔ ∀ p ∈ m, p.1 ≠ k := by
  simp [mapping_lookup, List.find?_eq_none]

theorem entry_or_insert_extends (m : List (Nat × Nat)) (k v : Nat) :
    ∃ t, (entry_or_insert m k v).2 = m ++ t := by
  unfold entry_or_insert
  cases h : mapping_lookup m k with
  | some i => exact ⟨[], by simp⟩
  | none => exact ⟨[(k, v)], by simp⟩

theorem entry_or_insert_dense (m : List (Nat × Nat)) (k : Nat) (hd : MappingDense m) :
    MappingDense (entry_or_insert m k m.length).2 := by
  unfold entry_or_insert
  cases h : mapping_lookup m k with
  | some i => simpa using hd
  | none =>
    have hk : ∀ p ∈ m, p.1 ≠ k := (mapping_lookup_none_iff m k).1 h
    simp only
    constructor
    · rw [List.map_append, hd.1, List.length_append]
      simp [List.range_succ]
    · rw [List.map_append]
      refine List.Nodup.append hd.2 (by simp) ?_
      intro a ha hb
      simp only [List.map_cons, List.map_nil, List.mem_singleton] at hb
      subst hb
      obtain ⟨p, hp, rfl⟩ := List.mem_map.1 ha
      exact hk p hp rfl

theorem add_instruction_body (p : Program) (i : QuilInstruction)
    (h : i.is_declaration = false) :
    (p.add_instruction i).memory_regions = p.memory_regions ∧
      (p.add_instruction i).instructions = p.instructions ++ [i] := by
  cases i <;> simp_all [Program.add_instruction, QuilInstruction.is_declaration]

theorem program_accumulating_add (p : Program) (i : QuilInstruction)
    (h : i.is_declaration = false) (hp : ProgramAccumulating p) :
    ProgramAccumulating (p.add_instruction i) := by
  obtain ⟨h1, h2⟩ := add_instruction_body p i h
  refine ⟨by rw [h1]; exact hp.1, ?_⟩
  rw [h2]
  intro j hj
  rcases List.mem_append.1 hj with hj | hj
  · exact hp.2 j hj
  · simp only [List.mem_singleton] at hj
    subst hj
    exact h

theorem add_gate_instruction_ok (ctx ctx' : ShotCountPatternMatchContext)
    (arguments : List OperationArgument) (function_name name : String)
    (adjoint controlled : Bool) (parameter_count qubit_count : Nat)
    (h : add_gate_instruction ctx arguments function_name name adjoint controlled
        parameter_count qubit_count = .ok ctx') :
    ∃ ps es qs ms,
      ctx' = { ctx with
        parameters := ps,
        quil_program := ctx.quil_program.add_instruction (.gate name es qs ms) } := by
  unfold add_gate_instruction at h
  split at h
  · simp at h
  · split at h
    · simp at h
    · simp only [Except.ok.injEq] at h
      subst h
      exact ⟨_, _, _, _, rfl⟩

theorem quantum_instruction_extends (ctx ctx' : ShotCountPatternMatchContext)
    (instruction : Instr)
    (h : quantum_instruction ctx instruction = .ok (some ctx')) :
    (∃ t, ctx'.read_result_mapping = ctx.read_result_mapping ++ t) ∧
      (ShotContextInvariant ctx → ShotContextInvariant ctx') := by
  unfold quantum_instruction at h
  split at h
  · -- call instruction
    split at h
    · -- QIS regex matched
      split at h
      · -- reset arm
        simp only [Except.ok.injEq, Option.some.injEq] at h
        subst h
        constructor
        · exact ⟨[], by simp [push_instruction_to_remove]⟩
        · intro hi
          simpa [ShotContextInvariant, push_instruction_to_remove] using hi
      · split at h
        · -- mz arm
          split at h
          · simp at h
          · split at h
            · simp at h
            · simp only [Except.ok.injEq, Option.some.injEq] at h
              subst h
              constructor
              · simpa [push_instruction_to_remove] using
                  entry_or_insert_extends ctx.read_result_mapping _ _
              · intro hi
                refine ⟨?_, ?_⟩
                · simpa [push_instruction_to_remove] using
                    entry_or_insert_dense ctx.read_result_mapping _ hi.1
                · simp only [push_instruction_to_remove]
                  exact program_accumulating_add _ _ rfl hi.2
        · -- gate dispatch
          split at h
          · split at h
            · simp at h
            · rename_i ctx2 hgate
              simp only [Except.ok.injEq, Option.some.injEq] at h
              subst h
              obtain ⟨ps, es, qs, ms, rfl⟩ :=
                add_gate_instruction_ok ctx ctx2 _ _ _ _ _ _ _ hgate
              constructor
              · exact ⟨[], by simp [push_instruction_to_remove]⟩
              · intro hi
                refine ⟨by simpa [push_instruction_to_remove] using hi.1, ?_⟩
                simp only [push_instruction_to_remove]
                exact program_accumulating_add _ _ rfl hi.2
          · simp at h
    · -- read_result branch / not a QIS intrinsic
      split at h
      · split at h
        · split at h
          · simp at h
          · simp only [Except.ok.injEq, Option.some.injEq] at h
            subst h
            constructor
            · exact ⟨[], by simp [push_instruction_to_remove]⟩
            · intro hi
              simpa [ShotContextInvariant, push_instruction_to_remove] using hi
        · simp at h
      · simp at h
  · simp at h

theorem rt_record_instruction_extends (ctx ctx' : ShotCountPatternMatchContext)
    (instruction : Instr)
    (h : rt_record_instruction ctx instruction = .ok (some ctx')) :
    (∃ t, ctx'.read_result_mapping = ctx.read_result_mapping ++ t) ∧
      (ShotContextInvariant ctx → ShotContextInvariant ctx') := by
  unfold rt_record_instruction at h
  split at h
  · split at h
    · split at h
      · -- result arm
        split at h
        · simp only [Except.ok.injEq, Option.some.injEq] at h
          subst h
          constructor
          · simpa using entry_or_insert_extends ctx.read_result_mapping _ _
          · intro hi
            exact ⟨entry_or_insert_dense ctx.read_result_mapping _ hi.1, hi.2⟩
        · simp at h
      · split at h
        · simp at h
        · -- tuple / array arms and the unmatched fallthrough
          split at h
          · simp only [Except.ok.injEq, Option.some.injEq] at h
            subst h
            exact ⟨⟨[], by simp⟩, fun hi => by simpa [ShotContextInvariant] using hi⟩
          · split at h
            · simp only [Except.ok.injEq, Option.some.injEq] at h
              subst h
              exact ⟨⟨[], by simp⟩, fun hi => by simpa [ShotContextInvariant] using hi⟩
            · split at h
              · simp only [Except.ok.injEq, Option.some.injEq] at h
                subst h
                exact ⟨⟨[], by simp⟩, fun hi => by simpa [ShotContextInvariant] using hi⟩
              · split at h
                · simp only [Except.ok.injEq, Option.some.injEq] at h
                  subst h
                  exact ⟨⟨[], by simp⟩, fun hi => by simpa [ShotContextInvariant] using hi⟩
                · simp at h
    · simp at h
  · simp at h

theorem shot_context_invariant_of_fields (ctx c : ShotCountPatternMatchContext)
    (h1 : c.read_result_mapping = ctx.read_result_mapping)
    (h2 : c.quil_program = ctx.quil_program)
    (hi : ShotContextInvariant ctx) : ShotContextInvariant c :=
  ⟨h1 ▸ hi.1, h2 ▸ hi.2⟩

theorem shot_count_loop_start_ok (ctx ctx' : ShotCountPatternMatchContext)
    (instruction : Instr)
    (h : shot_count_loop_start ctx instruction = some ctx') :
    ctx' = { ctx with initial_instruction := some instruction.id } := by
  unfold shot_count_loop_start at h
  split at h
  · simp only [Option.some.injEq] at h
    exact h.symm
  · simp at h

theorem shot_count_loop_end_checks_fields (block : List Instr)
    (ctx c : ShotCountPatternMatchContext) (next_instruction : Instr) (rest2 : List Instr)
    (h : shot_count_loop_end_checks block ctx next_instruction rest2 = .ok c) :
    c.read_result_mapping = ctx.read_result_mapping ∧
      c.quil_program = ctx.quil_program := by
  unfold shot_count_loop_end_checks at h
  repeat' split at h
  all_goals
    first
    | (simp at h; done)
    | (simp only [Except.ok.injEq] at h; subst h; exact ⟨rfl, rfl⟩)
    | (simp [ite_eq_iff] at h; done)
    | (simp [ite_eq_iff] at h
       first
       | (obtain ⟨-, -, rfl⟩ := h; exact ⟨rfl, rfl⟩)
       | (obtain ⟨-, -, -, rfl⟩ := h; exact ⟨rfl, rfl⟩)
       | (obtain ⟨-, rfl⟩ := h; exact ⟨rfl, rfl⟩))

theorem shot_count_loop_end_fields (block : List Instr)
    (ctx c : ShotCountPatternMatchContext) (instruction : Instr) (rest : List Instr)
    (h : shot_count_loop_end block ctx instruction rest = .ok (some c)) :
    c.read_result_mapping = ctx.read_result_mapping ∧
      c.quil_program = ctx.quil_program := by
  unfold shot_count_loop_end at h
  simp only [] at h
  repeat' split at h
  all_goals
    first
    | (simp at h; done)
    | (simp only [Except.ok.injEq, Option.some.injEq] at h
       subst h
       exact shot_count_loop_end_checks_fields _ _ _ _ _ (by assumption))

theorem from_basic_block_step_invariant (module_functions : List String)
    (cb : FunctionCallCallback) (block : List Instr) (visited : List String)
    (ctx c : ShotCountPatternMatchContext) (instruction : Instr) (rest : List Instr)
    (hi : ShotContextInvariant ctx)
    (h : from_basic_block_step module_functions cb block visited ctx instruction rest
          = .continueWith c ∨
        from_basic_block_step module_functions cb block visited ctx instruction rest
          = .stop c) :
    ShotContextInvariant c := by
  unfold from_basic_block_step at h
  rcases h with h | h <;>
  · repeat' split at h
    all_goals
      first
      | (simp at h; done)
      | (simp only [StepOutcome.continueWith.injEq, StepOutcome.stop.injEq] at h
         subst h
         first
         | exact hi
         | (obtain rfl := shot_count_loop_start_ok _ _ _ (by assumption)
            exact shot_context_invariant_of_fields ctx _ rfl rfl hi)
         | exact (quantum_instruction_extends _ _ _ (by assumption)).2 hi
         | exact (rt_record_instruction_extends _ _ _ (by assumption)).2 hi
         | (obtain ⟨h1, h2⟩ :=
              shot_count_loop_end_fields block ctx _ instruction rest (by assumption)
            exact shot_context_invariant_of_fields ctx _ h1 h2 hi))

theorem from_basic_block_go_invariant (module_functions : List String)
    (cb : FunctionCallCallback) (block : List Instr) (visited : List String)
    (l : List Instr) (ctx ctx' : ShotCountPatternMatchContext)
    (h : from_basic_block_go module_functions cb block visited ctx l = .ok ctx')
    (hi : ShotContextInvariant ctx) : ShotContextInvariant ctx' := by
  induction l generalizing ctx with
  | nil =>
    simp only [from_basic_block_go, Except.ok.injEq] at h
    subst h
    exact hi
  | cons instruction rest ih =>
    simp only [from_basic_block_go] at h
    split at h
    · rename_i ctx2 hstep
      exact ih ctx2
        (by exact h)
        (from_basic_block_step_invariant module_functions cb block visited ctx ctx2
          instruction rest hi (Or.inl hstep))
    · rename_i ctx2 hstep
      simp only [Except.ok.injEq] at h
      subst h
      exact from_basic_block_step_invariant module_functions cb block visited ctx _
        instruction rest hi (Or.inr hstep)
    · simp at h

theorem shot_context_invariant_default : ShotContextInvariant {} :=
  ⟨⟨rfl, List.nodup_nil⟩, rfl, by intro i hi; simp at hi⟩

theorem from_basic_block_invariant (module_functions : List String) (block : List Instr)
    (visited : List String) (cb : FunctionCallCallback)
    (ctx : ShotCountPatternMatchContext)
    (h : from_basic_block module_functions block visited cb = .ok ctx) :
    ShotContextInvariant ctx :=
  from_basic_block_go_invariant module_functions cb block visited block {} ctx h
    shot_context_invariant_default

theorem foldl_add_instruction_no_decl (l : List QuilInstruction) (p : Program)
    (h : ∀ i ∈ l, i.is_declaration = false) :
    (l.foldl Program.add_instruction p).memory_regions = p.memory_regions ∧
      (l.foldl Program.add_instruction p).instructions = p.instructions ++ l := by
  induction l generalizing p with
  | nil => simp
  | cons i rest ih =>
    obtain ⟨h1, h2⟩ := add_instruction_body p i (h i (by simp))
    obtain ⟨h3, h4⟩ := ih (p.add_instruction i) (fun j hj => h j (by simp [hj]))
    refine ⟨by rw [List.foldl_cons, h3, h1], ?_⟩
    rw [List.foldl_cons, h4, h2]
    simp

theorem foldl_add_instruction_decls (rs : List (String × ScalarType × Nat)) (p : Program)
    (h : ((p.memory_regions ++ rs).map Prod.fst).Nodup) :
    ((rs.map (fun r => QuilInstruction.declaration r.1 r.2.1 r.2.2)).foldl
        Program.add_instruction p).memory_regions = p.memory_regions ++ rs ∧
      ((rs.map (fun r => QuilInstruction.declaration r.1 r.2.1 r.2.2)).foldl
        Program.add_instruction p).instructions = p.instructions := by
  induction rs generalizing p with
  | nil => simp
  | cons r rest ih =>
    have hnotmem : r.1 ∉ p.memory_regions.map Prod.fst := by
      intro hmem
      rw [List.map_append] at h
      exact (List.nodup_append.1 h).2.2 hmem (by simp)
    have hfind : p.memory_regions.find? (fun q => q.1 == r.1) = none := by
      rw [List.find?_eq_none]
      intro q hq hbeq
      exact hnotmem (List.mem_map.2 ⟨q, hq, by simpa using hbeq⟩)
    have hadd :
        (p.add_instruction (QuilInstruction.declaration r.1 r.2.1 r.2.2)).memory_regions
            = p.memory_regions ++ [r] ∧
          (p.add_instruction (QuilInstruction.declaration r.1 r.2.1 r.2.2)).instructions
            = p.instructions := by
      simp [Program.add_instruction, hfind]
    obtain ⟨ha1, ha2⟩ := hadd
    have hnod2 :
        (((p.add_instruction (QuilInstruction.declaration r.1 r.2.1 r.2.2)).memory_regions
            ++ rest).map Prod.fst).Nodup := by
      rw [ha1, List.append_assoc]
      simpa using h
    obtain ⟨hi1, hi2⟩ := ih (p.add_instruction (QuilInstruction.declaration r.1 r.2.1 r.2.2)) hnod2
    constructor
    · rw [List.map_cons, List.foldl_cons, hi1, ha1, List.append_assoc]
      simp
    · rw [List.map_cons, List.foldl_cons, hi2, ha2]

theorem prepend_instruction_via_copy_spec (prologue : QuilInstruction) (p : Program)
    (hpro : prologue.is_declaration = false)
    (hnod : (p.memory_regions.map Prod.fst).Nodup)
    (hbody : ∀ i ∈ p.instructions, i.is_declaration = false) :
    (prepend_instruction_via_copy prologue p).memory_regions = p.memory_regions ∧
      (prepend_instruction_via_copy prologue p).instructions = prologue :: p.instructions := by
  unfold prepend_instruction_via_copy Program.to_instructions
  simp only
  rw [List.foldl_append]
  obtain ⟨hb1, hb2⟩ := add_instruction_body {} prologue hpro
  have hb1' : (Program.add_instruction {} prologue).memory_regions = [] := by
    simpa using hb1
  have hb2' : (Program.add_instruction {} prologue).instructions = [prologue] := by
    simpa using hb2
  obtain ⟨hd1, hd2⟩ := foldl_add_instruction_decls p.memory_regions
    (Program.add_instruction {} prologue) (by rw [hb1']; simpa using hnod)
  rw [hb1'] at hd1
  rw [hb2'] at hd2
  obtain ⟨hn1, hn2⟩ := foldl_add_instruction_no_decl p.instructions
    ((p.memory_regions.map (fun r => QuilInstruction.declaration r.1 r.2.1 r.2.2)).foldl
      Program.add_instruction (Program.add_instruction {} prologue)) hbody
  rw [hd1] at hn1
  rw [hd2] at hn2
  exact ⟨by simpa using hn1, by simpa using hn2⟩

theorem build_quil_program_regions (rewiring_pragma : Option String)
    (ctx : ShotCountPatternMatchContext) (out : ProgramOutput)
    (hb : build_quil_program rewiring_pragma ctx = .ok out)
    (hi : ShotContextInvariant ctx) :
    out.program.memory_regions =
      ("ro", ScalarType.bit, ctx.read_result_mapping.length) ::
        (if ctx.get_dynamic_parameters.isEmpty then []
         else [(PARAMETER_MEMORY_REGION_NAME, ScalarType.real,
                ctx.get_dynamic_parameters.length)]) := by
  unfold build_quil_program at hb
  split at hb
  · simp at hb
  · rename_i pdata program0 shots heq
    have hprog : program0 = ctx.quil_program := by
      unfold ShotCountPatternMatchContext.get_program_data at heq
      split at heq
      · split at heq
        · simp at heq
        · simp only [Option.some.injEq, Prod.mk.injEq] at heq
          exact heq.1.symm
      · simp at heq
    subst hprog
    -- stage 1: the `ro` declaration
    have h0reg : ctx.quil_program.memory_regions = [] := hi.2.1
    have h0body : ∀ i ∈ ctx.quil_program.instructions, i.is_declaration = false := hi.2.2
    have h1 :
        (ctx.quil_program.add_instruction
              (.declaration "ro" .bit ctx.read_result_mapping.length)).memory_regions
            = [("ro", ScalarType.bit, ctx.read_result_mapping.length)] ∧
          (ctx.quil_program.add_instruction
              (.declaration "ro" .bit ctx.read_result_mapping.length)).instructions
            = ctx.quil_program.instructions := by
      simp [Program.add_instruction, h0reg]
    obtain ⟨h1r, h1i⟩ := h1
    -- stage 2: the optional `__qir_param` declaration
    set program1 := ctx.quil_program.add_instruction
      (.declaration "ro" .bit ctx.read_result_mapping.length) with hprogram1
    set program2 :=
      if !ctx.get_dynamic_parameters.isEmpty then
        program1.add_instruction
          (.declaration PARAMETER_MEMORY_REGION_NAME .real ctx.get_dynamic_parameters.length)
      else program1 with hprogram2
    have h2 :
        program2.memory_regions =
            ("ro", ScalarType.bit, ctx.read_result_mapping.length) ::
              (if ctx.get_dynamic_parameters.isEmpty then []
               else [(PARAMETER_MEMORY_REGION_NAME, ScalarType.real,
                      ctx.get_dynamic_parameters.length)]) ∧
          program2.instructions = ctx.quil_program.instructions := by
      rw [hprogram2]
      by_cases hdyn : ctx.get_dynamic_parameters.isEmpty
      · simp [hdyn, h1r, h1i]
      · have hfind : program1.memory_regions.find?
            (fun q => q.1 == PARAMETER_MEMORY_REGION_NAME) = none := by
          rw [h1r]
          simp [PARAMETER_MEMORY_REGION_NAME]
        have hne : ("ro" : String) ≠ PARAMETER_MEMORY_REGION_NAME := by decide
        simp only [hdyn, Bool.not_false, if_true, Bool.false_eq_true, if_false]
        constructor
        · simp [Program.add_instruction, hfind, h1r, hdyn, hne]
        · simp [Program.add_instruction, hfind, h1i, hne]
    obtain ⟨h2r, h2i⟩ := h2
    have h2nod : (program2.memory_regions.map Prod.fst).Nodup := by
      rw [h2r]
      by_cases hdyn : ctx.get_dynamic_parameters.isEmpty
      · simp [hdyn]
      · simp only [hdyn, Bool.false_eq_true, if_false, List.map_cons, List.map_nil]
        decide
    have h2body : ∀ i ∈ program2.instructions, i.is_declaration = false := by
      rw [h2i]; exact h0body
    -- stage 3: the optional RESET prologue
    set program3 :=
      if ctx.use_active_reset then prepend_instruction_via_copy .resetAll program2
      else program2 with hprogram3
    have h3 :
        program3.memory_regions = program2.memory_regions ∧
          ∀ i ∈ program3.instructions, i.is_declaration = false := by
      rw [hprogram3]
      by_cases hres : ctx.use_active_reset
      · obtain ⟨hp1, hp2⟩ := prepend_instruction_via_copy_spec .resetAll program2 rfl h2nod h2body
        rw [if_pos hres]
        refine ⟨hp1, ?_⟩
        rw [hp2]
        intro i hi2
        rcases List.mem_cons.1 hi2 with hi2 | hi2
        · subst hi2; rfl
        · exact h2body i hi2
      · rw [if_neg hres]
        exact ⟨rfl, h2body⟩
    obtain ⟨h3r, h3body⟩ := h3
    have h3nod : (program3.memory_regions.map Prod.fst).Nodup := by rw [h3r]; exact h2nod
    -- stage 4: the optional rewiring pragma prologue
    have h4 :
        (match rewiring_pragma with
          | some value =>
            prepend_instruction_via_copy
              (.pragma "INITIAL_REWIRING" ["\"" ++ value ++ "\""]) program3
          | none => program3).memory_regions = program3.memory_regions := by
      cases rewiring_pragma with
      | some value =>
        exact (prepend_instruction_via_copy_spec
          (.pragma "INITIAL_REWIRING" ["\"" ++ value ++ "\""]) program3 rfl h3nod h3body).1
      | none => rfl
    simp only [Except.ok.injEq] at hb
    subst hb
    simp only [h4, h3r, h2r]

/-! Claim theorems. -/

/-- C1: for every block accepted by the shot-count matcher, the
`read_result_mapping` assigns `ro` buffer indices densely as `0..N-1`
in the order result indices are first seen: the entry stored at
position `i` carries buffer index `i`, no QIR result index occurs
twice, every matched `mz` or record-output step only appends new
entries at the end of the mapping (never renumbering old ones), and
the emitted `DECLARE ro BIT[n]` has `n` equal to the number of
distinct result indices in the mapping. -/
theorem C1_result_index_densification
    (module_functions : List String) (block : List Instr) (visited : List String)
    (cb : FunctionCallCallback) (ctx : ShotCountPatternMatchContext)
    (h : from_basic_block module_functions block visited cb = .ok ctx) :
    MappingDense ctx.read_result_mapping ∧
      (∀ (ctx0 ctx1 : ShotCountPatternMatchContext) (i : Instr),
        (quantum_instruction ctx0 i = .ok (some ctx1) ∨
          rt_record_instruction ctx0 i = .ok (some ctx1)) →
        ∃ t, ctx1.read_result_mapping = ctx0.read_result_mapping ++ t) ∧
      (∀ (rewiring_pragma : Option String) (out : ProgramOutput),
        build_quil_program rewiring_pragma ctx = .ok out →
        out.program.region "ro" = some (.bit, ctx.read_result_mapping.length)) := by
  have hinv := from_basic_block_invariant module_functions block visited cb ctx h
  refine ⟨hinv.1, ?_, ?_⟩
  · intro ctx0 ctx1 i hstep
    rcases hstep with hstep | hstep
    · exact (quantum_instruction_extends ctx0 ctx1 i hstep).1
    · exact (rt_record_instruction_extends ctx0 ctx1 i hstep).1
  · intro rewiring_pragma out hb
    have hreg := build_quil_program_regions rewiring_pragma ctx out hb hinv
    unfold Program.region
    rw [hreg]
    simp

/-- Witness for C1: the sparse block measuring result indices 3, 7, 1
is accepted and its mapping is dense. -/
theorem C1_result_index_densification_witness :
    MappingDense ((from_basic_block [] sparseShotBlock []
        fail_on_nested_function_call).toOption.getD {}).read_result_mapping :=
  (C1_result_index_densification [] sparseShotBlock [] fail_on_nested_function_call
    _ (by decide)).1

/-- C5: a constant float gate parameter is inlined as a Quil numeric
literal and never consumes a `__qir_param` slot; a non-constant SSA
float is assigned the slot equal to its position of first appearance
(the current slot count on first appearance, the recorded position on
every later appearance); and `DECLARE __qir_param REAL[m]` is emitted
with `m` the number of non-constant parameters, and only when that
number is positive. -/
theorem C5_parameter_slot_stability :
    (∀ (parameters : List FloatVal) (float_value : FloatVal) (c : Int),
      float_value.get_constant = some c →
      get_quil_parameter_expression parameters float_value = (.number c, parameters)) ∧
    (∀ (parameters : List FloatVal) (float_value : FloatVal),
      float_value.get_constant = none →
      float_value ∉ parameters →
      get_quil_parameter_expression parameters float_value =
        (.address { name := PARAMETER_MEMORY_REGION_NAME, index := parameters.length },
          parameters ++ [float_value])) ∧
    (∀ (parameters : List FloatVal) (float_value : FloatVal) (k : Nat),
      float_value.get_constant = none →
      parameters.findIdx? (fun el => el == float_value) = some k →
      get_quil_parameter_expression parameters float_value =
        (.address { name := PARAMETER_MEMORY_REGION_NAME, index := k }, parameters)) ∧
    (∀ (module_functions : List String) (block : List Instr) (visited : List String)
        (cb : FunctionCallCallback) (ctx : ShotCountPatternMatchContext)
        (rewiring_pragma : Option String) (out : ProgramOutput),
      from_basic_block module_functions block visited cb = .ok ctx →
      build_quil_program rewiring_pragma ctx = .ok out →
      (¬ctx.get_dynamic_parameters.isEmpty = true →
        out.program.region PARAMETER_MEMORY_REGION_NAME =
          some (.real, ctx.get_dynamic_parameters.length)) ∧
      (ctx.get_dynamic_parameters.isEmpty = true →
        out.program.region PARAMETER_MEMORY_REGION_NAME = none)) := by
  refine ⟨?_, ?_, ?_, ?_⟩
  · intro parameters float_value c hc
    unfold get_quil_parameter_expression
    rw [hc]
  · intro parameters float_value hc hmem
    have hidx : parameters.findIdx? (fun el => el == float_value) = none := by
      rw [List.findIdx?_eq_none_iff]
      intro x hx
      simp only [beq_eq_false_iff_ne, ne_eq]
      intro heq
      exact hmem (heq ▸ hx)
    unfold get_quil_parameter_expression get_quil_parameter_index
    rw [hc, hidx]
  · intro parameters float_value k hc hfound
    unfold get_quil_parameter_expression get_quil_parameter_index
    rw [hc, hfound]
  · intro module_functions block visited cb ctx rewiring_pragma out h hb
    have hinv := from_basic_block_invariant module_functions block visited cb ctx h
    have hreg := build_quil_program_regions rewiring_pragma ctx out hb hinv
    have hne : ("ro" : String) ≠ PARAMETER_MEMORY_REGION_NAME := by decide
    constructor
    · intro hdyn
      unfold Program.region
      rw [hreg]
      simp [hdyn, hne]
    · intro hdyn
      unfold Program.region
      rw [hreg]
      simp [hdyn, hne]

/-- Witness for C5: constant 3 is inlined without a slot; SSA value 100
takes slot 0 on first appearance and reuses it on the second; in the
parametric block the single dynamic parameter yields
`DECLARE __qir_param REAL[1]`. -/
theorem C5_parameter_slot_stability_witness :
    get_quil_parameter_expression [] (.constVal 3) = (.number 3, []) ∧
      get_quil_parameter_expression [] (.ssa 100) =
        (.address { name := PARAMETER_MEMORY_REGION_NAME, index := 0 }, [FloatVal.ssa 100]) ∧
      get_quil_parameter_expression [FloatVal.ssa 100] (.ssa 100) =
        (.address { name := PARAMETER_MEMORY_REGION_NAME, index := 0 }, [FloatVal.ssa 100]) ∧
      ((build_quil_program none ((from_basic_block [] parametricShotBlock []
            fail_on_nested_function_call).toOption.getD {})).toOption.getD
          { program := {}, shot_count := 0, recorded_output := [] }).program.region
        PARAMETER_MEMORY_REGION_NAME = some (.real, 1) := by
  refine ⟨C5_parameter_slot_stability.1 [] (.constVal 3) 3 rfl,
    C5_parameter_slot_stability.2.1 [] (.ssa 100) rfl (by decide),
    C5_parameter_slot_stability.2.2.1 [FloatVal.ssa 100] (.ssa 100) 0 rfl (by decide), ?_⟩
  have hmain := (C5_parameter_slot_stability.2.2.2 [] parametricShotBlock []
    fail_on_nested_function_call
    ((from_basic_block [] parametricShotBlock [] fail_on_nested_function_call).toOption.getD {})
    none
    ((build_quil_program none ((from_basic_block [] parametricShotBlock []
        fail_on_nested_function_call).toOption.getD {})).toOption.getD
      { program := {}, shot_count := 0, recorded_output := [] })
    (by decide) (by decide)).1 (by decide)
  have hlen : (((from_basic_block [] parametricShotBlock []
      fail_on_nested_function_call).toOption.getD {}).get_dynamic_parameters).length = 1 := by
    decide
  rw [hlen] at hmain
  exact hmain

theorem shot_count_loop_end_success_shape (block : List Instr)
    (ctx c : ShotCountPatternMatchContext) (instruction : Instr) (rest : List Instr) (s : Nat)
    (h : shot_count_loop_end block ctx instruction rest = .ok (some c))
    (h0 : ctx.shot_count = none) (hs : c.shot_count = some s) :
    ∃ op0 op1 next_instruction rest2 cop0 v phi_id final_instruction tail cond elseT thenT,
      instruction.opcode = Opcode.add op0 op1 ∧
      (operand_to_integer op1).bind integer_value_to_u64 = some 1 ∧
      rest = next_instruction :: rest2 ∧
      next_instruction.opcode = Opcode.icmp cop0 (Operand.intConst v) ∧
      ctx.initial_instruction = some phi_id ∧
      cop0.as_instruction_id = some phi_id ∧
      0 ≤ v ∧ s = v.toNat ∧
      rest2 = final_instruction :: tail ∧
      final_instruction.opcode = Opcode.br cond elseT thenT ∧
      c.next_basic_block = some elseT := by
  unfold shot_count_loop_end at h
  split at h
  · rename_i op0 op1 hop
    simp only [ite_eq_iff] at h
    rcases h with ⟨hinc, h⟩ | ⟨-, h⟩
    · split at h
      · simp at h
      · rename_i next_instruction rest2
        split at h
        · simp at h
        · rename_i ctx2 hcheck
          simp only [Except.ok.injEq, Option.some.injEq] at h
          subst h
          simp only [beq_iff_eq] at hinc
          unfold shot_count_loop_end_checks at hcheck
          split at hcheck
          case h_2 =>
            simp only [Except.ok.injEq] at hcheck
            subst hcheck
            rw [h0] at hs
            exact absurd hs (by simp)
          rename_i cop0 cop1 hicmp
          split at hcheck
          case isFalse =>
            simp only [Except.ok.injEq] at hcheck
            subst hcheck
            rw [h0] at hs
            exact absurd hs (by simp)
          rename_i hint
          split at hcheck
          case h_2 => simp [ite_eq_iff] at hcheck
          rename_i phi_id hinit
          split at hcheck
          case h_2 => simp [ite_eq_iff] at hcheck
          case h_3 => simp [ite_eq_iff] at hcheck
          rename_i v
          split at hcheck
          case isTrue => simp [ite_eq_iff] at hcheck
          rename_i hnneg
          split at hcheck
          case h_1 => simp [ite_eq_iff] at hcheck
          rename_i final_instruction tail
          split at hcheck
          case h_2 =>
            rename_i helse
            simp [ite_eq_iff] at hcheck
            obtain ⟨-, ⟨hbr1, -⟩, -⟩ := hcheck
            cases hfo : final_instruction.opcode <;> rw [hfo] at hbr1 <;>
              simp [is_br_opcode] at hbr1
            rw [hfo] at helse
            simp [br_else_target] at helse
          rename_i target helse
          simp [ite_eq_iff] at hcheck
          obtain ⟨hmatch, ⟨hbr1, hbrand⟩, hrec⟩ := hcheck
          subst hrec
          cases hfo : final_instruction.opcode <;> rw [hfo] at hbr1 <;>
            simp [is_br_opcode] at hbr1
          rename_i cond elseT thenT
          rw [hfo] at helse
          simp only [br_else_target, Option.some.injEq] at helse
          subst helse
          refine ⟨op0, op1, next_instruction, final_instruction :: tail, cop0, v, phi_id,
            final_instruction, tail, cond, elseT, thenT,
            hop, hinc, rfl, hicmp, hinit, hmatch, by omega, ?_, rfl, hfo, rfl⟩
          simpa using hs.symm
    · simp at h
  · simp at h

/-- C2 (the code evaluated at the failing input): in
`phiAfterCallBlock` the first instruction is a QIS call, not a phi.
The matcher nevertheless skips the leading non-phi instruction (the
source marks the missing ordering check with a FIXME), records the
second instruction as the loop phi, and produces a full match with
shot count 1000 — where the specification says the block must not
match at all. -/
theorem C2_loop_start_not_first_divergence :
    (phiAfterCallBlock.head?.map (fun i => i.opcode == Opcode.phi)) = some false ∧
      (from_basic_block [] phiAfterCallBlock [] fail_on_nested_function_call).toOption.map
          (fun c => (c.initial_instruction, c.shot_count, c.get_program_data.isSome))
        = some (some 1, some 1000, true) :=
  ⟨by decide, by decide⟩

/-- C3 (amended): triggered by an `add` whose second operand is the
constant 1, the LOOP_END match that records a shot count succeeds only
when the immediately following instruction is an `icmp` whose first
operand is the value defined by `initial_instruction` (the loop phi).
The add's own first operand is never compared against the phi, and the
icmp's first operand is the phi itself, not the add's result. -/
theorem C3_loop_end_operand_check (block : List Instr)
    (ctx c : ShotCountPatternMatchContext) (instruction : Instr) (rest : List Instr) (s : Nat)
    (h : shot_count_loop_end block ctx instruction rest = .ok (some c))
    (h0 : ctx.shot_count = none) (hs : c.shot_count = some s) :
    ∃ op0 op1 next_instruction rest2 cop0 cop1 phi_id,
      instruction.opcode = Opcode.add op0 op1 ∧
      (operand_to_integer op1).bind integer_value_to_u64 = some 1 ∧
      rest = next_instruction :: rest2 ∧
      next_instruction.opcode = Opcode.icmp cop0 cop1 ∧
      ctx.initial_instruction = some phi_id ∧
      cop0.as_instruction_id = some phi_id := by
  obtain ⟨op0, op1, next_instruction, rest2, cop0, v, phi_id, f, tl, cond, e, t,
    h1, h2, h3, h4, h5, h6, -⟩ :=
    shot_count_loop_end_success_shape block ctx c instruction rest s h h0 hs
  exact ⟨op0, op1, next_instruction, rest2, cop0, .intConst v, phi_id,
    h1, h2, h3, h4, h5, h6⟩

/-- C3 counterexample: in `constAddBlock` the add's first operand is
the constant 7 — not a value defined by any instruction, hence not by
`initial_instruction` — and the icmp's first operand is the phi (id 0)
rather than the add's result (id 2); the claimed conditions fail, yet
the matcher records shot count 5. -/
theorem C3_loop_end_counterexample :
    constAddBlock[2]?.map (fun i => i.opcode) =
        some (Opcode.add (Operand.intConst 7) (Operand.intConst 1)) ∧
      (Operand.intConst 7).as_instruction_id = none ∧
      constAddBlock[3]?.map (fun i => i.opcode) =
        some (Opcode.icmp (Operand.intInst 0) (Operand.intConst 5)) ∧
      (from_basic_block [] constAddBlock [] fail_on_nested_function_call).toOption.map
          (fun c => (c.shot_count, c.initial_instruction, c.next_basic_block))
        = some (some 5, some 0, some "exit") :=
  ⟨by decide, by decide, by decide, by decide⟩

/-- C4: when the shot-count matcher records a shot count, the count
equals the (non-negative) integer constant right-operand of the
matched icmp and the branch's else-target is recorded as
`next_basic_block`; the constant-1 increment is required for LOOP_END
to trigger at all; and a negative icmp constant makes matching fail
with `InvalidShotCount` rather than setting a shot count. -/
theorem C4_shot_count_extraction :
    (∀ (block : List Instr) (ctx c : ShotCountPatternMatchContext)
        (instruction : Instr) (rest : List Instr) (s : Nat),
      shot_count_loop_end block ctx instruction rest = .ok (some c) →
      ctx.shot_count = none → c.shot_count = some s →
      ∃ next_instruction rest2 cop0 v final_instruction tail cond elseT thenT,
        rest = next_instruction :: rest2 ∧
        next_instruction.opcode = Opcode.icmp cop0 (Operand.intConst v) ∧
        0 ≤ v ∧ s = v.toNat ∧
        rest2 = final_instruction :: tail ∧
        final_instruction.opcode = Opcode.br cond elseT thenT ∧
        c.next_basic_block = some elseT) ∧
    (∀ (block : List Instr) (ctx : ShotCountPatternMatchContext) (instruction : Instr)
        (rest : List Instr) (op0 op1 : Operand),
      instruction.opcode = Opcode.add op0 op1 →
      (operand_to_integer op1).bind integer_value_to_u64 ≠ some 1 →
      shot_count_loop_end block ctx instruction rest = .ok none) ∧
    (∀ (block : List Instr) (ctx : ShotCountPatternMatchContext)
        (instruction next_instruction : Instr) (rest2 : List Instr)
        (op0 op1 cop0 : Operand) (phi_id : Nat) (v : Int),
      instruction.opcode = Opcode.add op0 op1 →
      (operand_to_integer op1).bind integer_value_to_u64 = some 1 →
      next_instruction.opcode = Opcode.icmp cop0 (Operand.intConst v) →
      cop0.is_int_value = true →
      ctx.initial_instruction = some phi_id →
      cop0.as_instruction_id = some phi_id →
      v < 0 →
      shot_count_loop_end block ctx instruction (next_instruction :: rest2) =
        .error .invalidShotCount) := by
  refine ⟨?_, ?_, ?_⟩
  · intro block ctx c instruction rest s h h0 hs
    obtain ⟨op0, op1, next_instruction, rest2, cop0, v, phi_id, f, tl, cond, e, t,
      h1, h2, h3, h4, h5, h6, h7, h8, h9, h10, h11⟩ :=
      shot_count_loop_end_success_shape block ctx c instruction rest s h h0 hs
    exact ⟨next_instruction, rest2, cop0, v, f, tl, cond, e, t,
      h3, h4, h7, h8, h9, h10, h11⟩
  · intro block ctx instruction rest op0 op1 hop hne
    simp [shot_count_loop_end, hop, hne]
  · intro block ctx instruction next_instruction rest2 op0 op1 cop0 phi_id v
      hop hinc hicmp hint hinit hmatch hneg
    simp [shot_count_loop_end, shot_count_loop_end_checks, hop, hinc, hicmp, hint,
      hinit, hmatch, hneg]

/-- Witness for C4 at `sparseShotBlock` (shot count 1000, else-target
`exit`) and for the failure clauses at concrete operands. -/
theorem C4_shot_count_extraction_witness :
    shot_count_loop_end sparseShotBlock
        { initial_instruction := some 0, shot_count := none }
        ⟨5, .add (.intInst 0) (.intConst 1)⟩
        [⟨6, .icmp (.intInst 0) (.intConst 1000)⟩, ⟨7, .br (.intInst 6) "exit" "body"⟩]
        = .ok (some { initial_instruction := some 0, shot_count := some 1000,
                      next_basic_block := some "exit" }) ∧
      shot_count_loop_end sparseShotBlock {} ⟨5, .add (.intInst 0) (.intConst 7)⟩ []
        = .ok none ∧
      shot_count_loop_end negativeShotBlock
        { initial_instruction := some 0 }
        ⟨2, .add (.intInst 0) (.intConst 1)⟩
        [⟨3, .icmp (.intInst 0) (.intConst (-5))⟩, ⟨4, .br (.intInst 3) "exit" "body"⟩]
        = .error .invalidShotCount := by
  refine ⟨by decide, ?_, ?_⟩
  · exact C4_shot_count_extraction.2.1 sparseShotBlock {}
      ⟨5, .add (.intInst 0) (.intConst 7)⟩ [] (.intInst 0) (.intConst 7) rfl (by decide)
  · exact C4_shot_count_extraction.2.2 negativeShotBlock
      { initial_instruction := some 0 }
      ⟨2, .add (.intInst 0) (.intConst 1)⟩
      ⟨3, .icmp (.intInst 0) (.intConst (-5))⟩
      [⟨4, .br (.intInst 3) "exit" "body"⟩]
      (.intInst 0) (.intConst 1) (.intInst 0) 0 (-5)
      rfl (by decide) rfl (by decide) rfl (by decide) (by decide)

/-- Witness for C3 applying the amended theorem at `constAddBlock`'s
LOOP_END triple (shot count 5 recorded, phi id 0). -/
theorem C3_loop_end_operand_check_witness :
    ∃ op0 op1 next_instruction rest2 cop0 cop1 phi_id,
      (⟨2, .add (.intConst 7) (.intConst 1)⟩ : Instr).opcode = Opcode.add op0 op1 ∧
      (operand_to_integer op1).bind integer_value_to_u64 = some 1 ∧
      ([⟨3, .icmp (.intInst 0) (.intConst 5)⟩, ⟨4, .br (.intInst 3) "exit" "body"⟩]
          : List Instr) = next_instruction :: rest2 ∧
      next_instruction.opcode = Opcode.icmp cop0 cop1 ∧
      ({ initial_instruction := some 0 } : ShotCountPatternMatchContext).initial_instruction
        = some phi_id ∧
      cop0.as_instruction_id = some phi_id :=
  C3_loop_end_operand_check constAddBlock { initial_instruction := some 0 }
    { initial_instruction := some 0, shot_count := some 5, next_basic_block := some "exit" }
    ⟨2, .add (.intConst 7) (.intConst 1)⟩
    [⟨3, .icmp (.intInst 0) (.intConst 5)⟩, ⟨4, .br (.intInst 3) "exit" "body"⟩]
    5 (by decide) rfl rfl

/-- C6: a unitary-format transpile succeeds only on a nullary,
non-variadic function returning void or i64 with exactly one basic
block; within the block only QIS/rt-record instructions are consumed, a
`ret` ends the scan successfully, and any other instruction fails the
transpile with `ForbiddenClassicalInstruction` instead of being
skipped. -/
theorem C6_unitary_format_requirements :
    (∀ (rewiring_pragma : Option String) (function : Unitary.UnitaryFunction)
        (out : Unitary.UnitaryProgramOutput),
      Unitary.transpile_function rewiring_pragma function = .ok out →
      function.param_count = 0 ∧ function.is_var_arg = false ∧
        (function.return_type = none ∨ function.return_type = some .i64Return) ∧
        ∃ b, function.blocks = [b]) ∧
    (∀ (ctx : Unitary.UnitaryPatternMatchContext) (instruction : Instr) (rest : List Instr),
      Unitary.quantum_instruction ctx instruction = .ok none →
      Unitary.rt_record_instruction ctx instruction = .ok none →
      instruction.opcode ≠ .ret →
      Unitary.from_basic_block_go ctx (instruction :: rest) =
        .error (.forbiddenClassicalInstruction instruction.id)) ∧
    (∀ (ctx : Unitary.UnitaryPatternMatchContext) (i : Nat) (rest : List Instr),
      Unitary.from_basic_block_go ctx (⟨i, .ret⟩ :: rest) = .ok ctx) := by
  refine ⟨?_, ?_, ?_⟩
  · intro rewiring_pragma function out h
    unfold Unitary.transpile_function at h
    split at h
    · simp at h
    · rename_i hcond
      have hcond2 : (function.param_count == 0 && !function.is_var_arg &&
          match function.return_type with
          | none => true
          | some ret_ty => ret_ty == Unitary.LlvmReturnType.i64Return) = true := by
        simpa using hcond
      rw [Bool.and_eq_true, Bool.and_eq_true] at hcond2
      obtain ⟨⟨hp, hv⟩, hret⟩ := hcond2
      refine ⟨by simpa using hp, by simpa using hv, ?_, ?_⟩
      · cases hr : function.return_type with
        | none => exact Or.inl rfl
        | some rt =>
          rw [hr] at hret
          right
          rcases rt with _ | d
          · rfl
          · simp at hret
      · split at h
        · rename_i first_block heq2
          exact ⟨first_block, heq2⟩
        · simp at h
  · intro ctx instruction rest hq hr hne
    simp only [Unitary.from_basic_block_go, hq, hr]
    simp [hne]
  · intro ctx i rest
    simp [Unitary.from_basic_block_go, Unitary.quantum_instruction,
      Unitary.rt_record_instruction]

/-- Witness for C6: the Bell-style unitary function transpiles and has
the required signature; a classical `add` in a unitary block fails
immediately with `ForbiddenClassicalInstruction`. -/
theorem C6_unitary_format_requirements_witness :
    (unitaryOkFunction.param_count = 0 ∧ unitaryOkFunction.is_var_arg = false ∧
      (unitaryOkFunction.return_type = none ∨
        unitaryOkFunction.return_type = some .i64Return) ∧
      ∃ b, unitaryOkFunction.blocks = [b]) ∧
    Unitary.from_basic_block_go {} [⟨1, .add (.intConst 0) (.intConst 0)⟩, ⟨2, .ret⟩] =
      .error (.forbiddenClassicalInstruction 1) :=
  ⟨C6_unitary_format_requirements.1 none unitaryOkFunction
      ((Unitary.transpile_function none unitaryOkFunction).toOption.getD
        { program := {}, recorded_output := [] }) (by decide),
   C6_unitary_format_requirements.2.1 {} ⟨1, .add (.intConst 0) (.intConst 0)⟩
      [⟨2, .ret⟩] (by decide) (by decide) (by decide)⟩

/-- C7 (amended): a `read_result` call on a result index never
targeted by `mz` fails hard with `UnmeasuredResultRead` in BOTH the
shot-count and the unitary matcher (the source duplicates the
handler), while `__quantum__rt__result_record_output` on an unmeasured
result does not fail in either matcher: each allocates the next dense
`ro` slot for the index (the recorded value always reading 0 is
logged). -/
theorem C7_unmeasured_result_handling :
    (∀ (ctx : ShotCountPatternMatchContext) (i result_index : Nat),
      mapping_lookup ctx.read_result_mapping result_index = none →
      quantum_instruction ctx
          ⟨i, .call "__quantum__qis__read_result__body" [.result result_index]⟩ =
        .error (.unmeasuredResultRead result_index)) ∧
    (∀ (ctx : Unitary.UnitaryPatternMatchContext) (i result_index : Nat),
      mapping_lookup ctx.read_result_mapping result_index = none →
      Unitary.quantum_instruction ctx
          ⟨i, .call "__quantum__qis__read_result__body" [.result result_index]⟩ =
        .error (.unmeasuredResultRead result_index)) ∧
    (∀ (ctx : ShotCountPatternMatchContext) (i result_index : Nat),
      mapping_lookup ctx.read_result_mapping result_index = none →
      rt_record_instruction ctx
          ⟨i, .call "__quantum__rt__result_record_output" [.result result_index]⟩ =
        .ok (some { ctx with
          read_result_mapping :=
            ctx.read_result_mapping ++ [(result_index, ctx.read_result_mapping.length)],
          recorded_output := ctx.recorded_output ++
            [RecordedOutput.resultReadoutOffset ctx.read_result_mapping.length] })) ∧
    (∀ (ctx : Unitary.UnitaryPatternMatchContext) (i result_index : Nat),
      mapping_lookup ctx.read_result_mapping result_index = none →
      Unitary.rt_record_instruction ctx
          ⟨i, .call "__quantum__rt__result_record_output" [.result result_index]⟩ =
        .ok (some { ctx with
          read_result_mapping :=
            ctx.read_result_mapping ++ [(result_index, ctx.read_result_mapping.length)],
          recorded_output := ctx.recorded_output ++
            [RecordedOutput.resultReadoutOffset ctx.read_result_mapping.length] })) := by
  have hparse : parse_qis_intrinsic "__quantum__qis__read_result__body" = none := by decide
  have hrt : parse_rt_record_output "__quantum__rt__result_record_output" = some "result" := by
    decide
  refine ⟨?_, ?_, ?_, ?_⟩
  · intro ctx i result_index hm
    simp [quantum_instruction, hparse, hm]
  · intro ctx i result_index hm
    simp [Unitary.quantum_instruction, hparse, hm]
  · intro ctx i result_index hm
    simp [rt_record_instruction, hrt, entry_or_insert, hm]
  · intro ctx i result_index hm
    simp [Unitary.rt_record_instruction, hrt, entry_or_insert, hm]

/-- C7 counterexample to the claim as stated: the hard failure on an
unmeasured `read_result` is NOT exclusive to the shot-count matcher —
the unitary matcher fails with the same error on `unmeasuredReadBlock`. -/
theorem C7_unmeasured_read_counterexample :
    Unitary.from_basic_block unmeasuredReadBlock = .error (.unmeasuredResultRead 5) := by
  decide

/-- Witness for C7 at the empty context and result index 5, in all
four arms (both matchers' `read_result` and `rt_record` handlers). -/
theorem C7_unmeasured_result_handling_witness :
    quantum_instruction {} ⟨0, .call "__quantum__qis__read_result__body" [.result 5]⟩ =
        .error (.unmeasuredResultRead 5) ∧
      Unitary.quantum_instruction {}
          ⟨0, .call "__quantum__qis__read_result__body" [.result 5]⟩ =
        .error (.unmeasuredResultRead 5) ∧
      rt_record_instruction {} ⟨0, .call "__quantum__rt__result_record_output" [.result 5]⟩ =
        .ok (some { ({} : ShotCountPatternMatchContext) with
          read_result_mapping := [(5, 0)],
          recorded_output := [RecordedOutput.resultReadoutOffset 0] }) ∧
      Unitary.rt_record_instruction {}
          ⟨0, .call "__quantum__rt__result_record_output" [.result 5]⟩ =
        .ok (some { ({} : Unitary.UnitaryPatternMatchContext) with
          read_result_mapping := [(5, 0)],
          recorded_output := [RecordedOutput.resultReadoutOffset 0] }) :=
  ⟨C7_unmeasured_result_handling.1 {} 0 5 rfl,
   C7_unmeasured_result_handling.2.1 {} 0 5 rfl,
   C7_unmeasured_result_handling.2.2.1 {} 0 5 rfl,
   C7_unmeasured_result_handling.2.2.2 {} 0 5 rfl⟩

theorem sweep_retained_le (live : List ModuleInstr) (queue : List Nat) :
    (sweep live queue).2.1.length ≤ queue.length := by
  induction queue generalizing live with
  | nil => simp [sweep]
  | cons i rest ih =>
    by_cases h : has_use live i = true
    · simpa [sweep, h] using Nat.succ_le_succ (ih live)
    · simp only [sweep, h, if_false, List.length_cons]
      exact Nat.le_succ_of_le (ih _)

theorem sweep_removed_lt (live : List ModuleInstr) (queue : List Nat)
    (h : (sweep live queue).2.2 = true) :
    (sweep live queue).2.1.length < queue.length := by
  induction queue generalizing live with
  | nil => simp [sweep] at h
  | cons i rest ih =>
    by_cases hu : has_use live i = true
    · simp only [sweep, hu, if_true] at h ⊢
      exact Nat.succ_lt_succ (ih live h)
    · simp only [sweep, hu, if_false, List.length_cons]
      exact Nat.lt_succ_of_le (sweep_retained_le _ _)

theorem sweep_retained_sublist (live : List ModuleInstr) (queue : List Nat) :
    (sweep live queue).2.1.Sublist queue := by
  induction queue generalizing live with
  | nil => simp [sweep]
  | cons i rest ih =>
    by_cases hu : has_use live i = true
    · simp only [sweep, hu, if_true]
      exact List.Sublist.cons₂ i (ih live)
    · simp only [sweep, hu, if_false]
      exact List.Sublist.cons i (ih _)

theorem sweep_cons_pos (live : List ModuleInstr) (i : Nat) (rest : List Nat)
    (hu : has_use live i = true) :
    (sweep live (i :: rest)).1 = (sweep live rest).1 ∧
      (sweep live (i :: rest)).2.1 = i :: (sweep live rest).2.1 := by
  simp [sweep, hu]

theorem sweep_cons_neg (live : List ModuleInstr) (i : Nat) (rest : List Nat)
    (hu : has_use live i = false) :
    (sweep live (i :: rest)).1 = (sweep (live.filter (fun j => j.id != i)) rest).1 ∧
      (sweep live (i :: rest)).2.1 = (sweep (live.filter (fun j => j.id != i)) rest).2.1 := by
  simp [sweep, hu]

theorem sweep_live_mem (live : List ModuleInstr) (queue : List Nat) (hq : queue.Nodup)
    (j : ModuleInstr) :
    j ∈ (sweep live queue).1 ↔
      (j ∈ live ∧ (j.id ∈ (sweep live queue).2.1 ∨ j.id ∉ queue)) := by
  induction queue generalizing live with
  | nil => simp [sweep]
  | cons i rest ih =>
    have hrest : rest.Nodup := (List.nodup_cons.1 hq).2
    have hnotmem : i ∉ rest := (List.nodup_cons.1 hq).1
    by_cases hu : has_use live i = true
    · obtain ⟨he1, he2⟩ := sweep_cons_pos live i rest hu
      rw [he1, he2, ih live hrest]
      by_cases hid : j.id = i
      · simp [hid, hnotmem]
      · simp [hid]
    · have hu2 : has_use live i = false := by simpa using hu
      obtain ⟨he1, he2⟩ := sweep_cons_neg live i rest hu2
      rw [he1, he2, ih (live.filter (fun x => x.id != i)) hrest]
      have hfil : j ∈ live.filter (fun x => x.id != i) ↔ (j ∈ live ∧ j.id ≠ i) := by
        simp [List.mem_filter]
      rw [hfil]
      by_cases hid : j.id = i
      · have hnk : i ∉ (sweep (live.filter (fun x => x.id != i)) rest).2.1 := by
          intro hk
          exact hnotmem ((sweep_retained_sublist _ rest).subset hk)
        simp [hid, hnk, hnotmem]
      · simp [hid]

theorem sweep_safely_erasable (live : List ModuleInstr) (queue : List Nat) :
    SafelyErasable live (sweep live queue).1 := by
  induction queue generalizing live with
  | nil => exact SafelyErasable.refl live
  | cons i rest ih =>
    by_cases hu : has_use live i = true
    · simpa [sweep, hu] using ih live
    · simp only [sweep, hu, if_false]
      exact SafelyErasable.step _ _ i (by simpa using hu) (ih _)

theorem safely_erasable_trans (a b c : List ModuleInstr)
    (hab : SafelyErasable a b) (hbc : SafelyErasable b c) : SafelyErasable a c := by
  induction hab with
  | refl _ => exact hbc
  | step live live2 i hu _ ih => exact SafelyErasable.step _ _ i hu (ih hbc)

theorem sweep_all_used (live : List ModuleInstr) (queue : List Nat)
    (h : ∀ i ∈ queue, has_use live i = true) :
    sweep live queue = (live, queue, false) := by
  induction queue with
  | nil => rfl
  | cons i rest ih =>
    have hi : has_use live i = true := h i (by simp)
    have hr := ih (fun j hj => h j (by simp [hj]))
    simp [sweep, hi, hr]

theorem remove_instructions_ok_aux (n : Nat) :
    ∀ (live : List ModuleInstr) (queue : List Nat), queue.length ≤ n → queue.Nodup →
      ∀ live', remove_instructions_in_safe_order live queue = .ok live' →
        SafelyErasable live live' ∧ (∀ j, j ∈ live' ↔ (j ∈ live ∧ j.id ∉ queue)) := by
  induction n with
  | zero =>
    intro live queue hlen _ live' h
    have hqe : queue = [] := List.eq_nil_of_length_eq_zero (Nat.le_zero.1 hlen)
    subst hqe
    rw [remove_instructions_in_safe_order] at h
    simp only [sweep, List.isEmpty_nil, if_true, Except.ok.injEq] at h
    subst h
    exact ⟨SafelyErasable.refl live, by simp⟩
  | succ n ih =>
    intro live queue hlen hq live' h
    rw [remove_instructions_in_safe_order] at h
    by_cases hke : (sweep live queue).2.1.isEmpty
    · rw [if_pos hke] at h
      simp only [Except.ok.injEq] at h
      subst h
      have hkeptnil : (sweep live queue).2.1 = [] := by simpa using hke
      refine ⟨sweep_safely_erasable live queue, fun j => ?_⟩
      rw [sweep_live_mem live queue hq j, hkeptnil]
      simp
    · rw [if_neg hke] at h
      by_cases hrm : (sweep live queue).2.2 = true
      · rw [dif_pos hrm] at h
        have hlt := sweep_removed_lt live queue hrm
        have hkq : (sweep live queue).2.1.Nodup :=
          (sweep_retained_sublist live queue).nodup hq
        obtain ⟨hsafe, hmem⟩ := ih (sweep live queue).1 (sweep live queue).2.1
          (by omega) hkq live' h
        refine ⟨safely_erasable_trans _ _ _ (sweep_safely_erasable live queue) hsafe,
          fun j => ?_⟩
        rw [hmem j, sweep_live_mem live queue hq j]
        have hsub := (sweep_retained_sublist live queue).subset
        constructor
        · rintro ⟨⟨hl, hor⟩, hnk⟩
          refine ⟨hl, fun hin => ?_⟩
          rcases hor with hork | hornq
          · exact hnk hork
          · exact hornq hin
        · rintro ⟨hl, hnq⟩
          exact ⟨⟨hl, Or.inr hnq⟩, fun hk => hnq (hsub hk)⟩
      · rw [dif_neg hrm] at h
        simp at h

/-- C8: for every list of consumed instructions handed to deletion,
the repeated-sweep procedure terminates with a definite verdict: on
success every queued instruction has been removed (and nothing else),
the removals form a sequence in which no instruction is ever removed
while another live instruction still uses it; and when the queue is
non-empty but every queued instruction is still used, a whole pass
removes nothing and the procedure fails with `UseCycle` instead of
guessing. -/
theorem C8_safe_deletion_order :
    (∀ (live : List ModuleInstr) (instructions : List Nat) (live' : List ModuleInstr),
      instructions.Nodup →
      remove_instructions_in_safe_order live instructions = .ok live' →
      SafelyErasable live live' ∧
        (∀ j, j ∈ live' ↔ (j ∈ live ∧ j.id ∉ instructions))) ∧
    (∀ (live : List ModuleInstr) (instructions : List Nat),
      instructions ≠ [] →
      (∀ i ∈ instructions, has_use live i = true) →
      remove_instructions_in_safe_order live instructions = .error .useCycle) := by
  constructor
  · intro live instructions live' hq h
    exact remove_instructions_ok_aux instructions.length live instructions le_rfl hq live' h
  · intro live instructions hne hall
    rw [remove_instructions_in_safe_order, sweep_all_used live instructions hall]
    simp [hne, List.isEmpty_iff]

/-- Witness for C8: the two-instruction chain 0 → 1 is removed safely
when queued as [1, 0] (two sweeps needed); the mutual-use pair 0 ↔ 1 is
rejected with `UseCycle`. -/
theorem C8_safe_deletion_order_witness :
    (SafelyErasable [⟨0, [1]⟩, ⟨1, []⟩] [] ∧
      (∀ j, j ∈ ([] : List ModuleInstr) ↔
        (j ∈ ([⟨0, [1]⟩, ⟨1, []⟩] : List ModuleInstr) ∧ j.id ∉ ([1, 0] : List Nat)))) ∧
    remove_instructions_in_safe_order [⟨0, [1]⟩, ⟨1, [0]⟩] [0, 1] = .error .useCycle :=
  ⟨C8_safe_deletion_order.1 [⟨0, [1]⟩, ⟨1, []⟩] [1, 0] [] (by decide)
      (by simp [remove_instructions_in_safe_order, sweep, has_use]),
   C8_safe_deletion_order.2 [⟨0, [1]⟩, ⟨1, [0]⟩] [0, 1] (by decide) (by decide)⟩

theorem collect_bad_params_aux (m : QirModule) (fns : List (String × List ParamType))
    (init : List (String × ParamType)) (x : String × ParamType) :
    (x ∈ fns.foldl
        (fun acc f =>
          if "__quantum__qis__".data.isPrefixOf f.1.data then
            acc ++ (f.2.filter (fun p => !param_is_valid (allowed_pointer_params m) p)).map
              (fun p => (f.1, p))
          else acc)
        init) ↔
      (x ∈ init ∨ ∃ f ∈ fns, "__quantum__qis__".data.isPrefixOf f.1.data = true ∧
        ∃ p ∈ f.2, param_is_valid (allowed_pointer_params m) p = false ∧ x = (f.1, p)) := by
  induction fns generalizing init with
  | nil => simp
  | cons f rest ih =>
    rw [List.foldl_cons]
    by_cases hf : "__quantum__qis__".data.isPrefixOf f.1.data = true
    · rw [if_pos hf, ih]
      simp only [List.mem_append, List.mem_map, List.mem_filter, List.mem_cons]
      constructor
      · rintro ((hx | ⟨p, ⟨hp, hval⟩, rfl⟩) | ⟨g, hg, hgpre, p, hp, hval, rfl⟩)
        · exact Or.inl hx
        · exact Or.inr ⟨f, Or.inl rfl, hf, p, hp, by simpa using hval, rfl⟩
        · exact Or.inr ⟨g, Or.inr hg, hgpre, p, hp, hval, rfl⟩
      · rintro (hx | ⟨g, (rfl | hg), hgpre, p, hp, hval, rfl⟩)
        · exact Or.inl (Or.inl hx)
        · exact Or.inl (Or.inr ⟨p, ⟨hp, by simpa using hval⟩, rfl⟩)
        · exact Or.inr ⟨g, hg, hgpre, p, hp, hval, rfl⟩
    · rw [if_neg hf, ih]
      constructor
      · rintro (hx | ⟨g, hg, hgpre, hrest⟩)
        · exact Or.inl hx
        · exact Or.inr ⟨g, List.mem_cons.2 (Or.inr hg), hgpre, hrest⟩
      · rintro (hx | ⟨g, hg, hgpre, hrest⟩)
        · exact Or.inl hx
        · rcases List.mem_cons.1 hg with rfl | hg2
          · exact absurd hgpre hf
          · exact Or.inr ⟨g, hg2, hgpre, hrest⟩

theorem collect_bad_params_mem (m : QirModule) (x : String × ParamType) :
    x ∈ collect_bad_params m ↔
      ∃ f ∈ m.functions, "__quantum__qis__".data.isPrefixOf f.1.data = true ∧
        ∃ p ∈ f.2, param_is_valid (allowed_pointer_params m) p = false ∧ x = (f.1, p) := by
  unfold collect_bad_params
  rw [collect_bad_params_aux m m.functions [] x]
  simp

/-- C9 (amended): context construction validates every declared
function whose name begins with `__quantum__qis__` before returning,
rejecting the module exactly when some parameter of such a function is
neither a floating-point value (the source accepts any `FloatValue`
width, not only the 64-bit `double`) nor a pointer to the opaque
structs `Qubit` or `Result`; the error carries the collected list of
(function, parameter) offenders, so `__quantum__qis__foo(i32)` is
rejected at construction. -/
theorem C9_quantum_fn_param_validation :
    (∀ m : QirModule, new_from_data m = .ok m ↔ collect_bad_params m = []) ∧
    (∀ m : QirModule, collect_bad_params m ≠ [] →
      new_from_data m = .error (.quantumFnParamBadType (collect_bad_params m))) ∧
    (∀ (m : QirModule) (fname : String) (params : List ParamType) (p : ParamType),
      (fname, params) ∈ m.functions →
      "__quantum__qis__".data.isPrefixOf fname.data = true →
      p ∈ params →
      param_is_valid (allowed_pointer_params m) p = false →
      (fname, p) ∈ collect_bad_params m) ∧
    (∀ (m : QirModule) (x : String × ParamType),
      x ∈ collect_bad_params m →
      ∃ f ∈ m.functions, "__quantum__qis__".data.isPrefixOf f.1.data = true ∧
        ∃ p ∈ f.2, param_is_valid (allowed_pointer_params m) p = false ∧ x = (f.1, p)) := by
  refine ⟨?_, ?_, ?_, ?_⟩
  · intro m
    constructor
    · intro h
      unfold new_from_data validate_quantum_fn_params at h
      by_cases hbe : (collect_bad_params m).isEmpty
      · simpa using hbe
      · rw [if_neg hbe] at h
        simp at h
    · intro h
      unfold new_from_data validate_quantum_fn_params
      rw [if_pos (by simp [h])]
  · intro m hne
    unfold new_from_data validate_quantum_fn_params
    rw [if_neg (by simpa [List.isEmpty_iff] using hne)]
  · intro m fname params p hmem hpre hp hval
    exact (collect_bad_params_mem m (fname, p)).2
      ⟨(fname, params), hmem, hpre, p, hp, hval, rfl⟩
  · intro m x hx
    exact (collect_bad_params_mem m x).1 hx

/-- C9 counterexample to the claim as stated: a module declaring
`__quantum__qis__foo(float)` — a 32-bit float, which is not a double
and not a Qubit/Result pointer — passes validation, because the source
accepts any `FloatValue` parameter. -/
theorem C9_float_param_counterexample :
    validate_quantum_fn_params float32Module = .ok () ∧
      new_from_data float32Module = .ok float32Module ∧
      float32Module.functions = [("__quantum__qis__foo", [.floatParam 32])] ∧
      ParamType.floatParam 32 ≠ ParamType.floatParam 64 ∧
      (∀ s, ParamType.floatParam 32 ≠ ParamType.pointerToStruct s) :=
  ⟨by decide, by decide, rfl, by decide, fun s => by simp⟩

/-- Witness for C9: `__quantum__qis__foo(i32)` makes construction fail
with the offending parameter carried in the error. -/
theorem C9_quantum_fn_param_validation_witness :
    new_from_data i32Module =
        .error (.quantumFnParamBadType [("__quantum__qis__foo", .intParam 32)]) ∧
      ("__quantum__qis__foo", ParamType.intParam 32) ∈ collect_bad_params i32Module := by
  have hcol : collect_bad_params i32Module = [("__quantum__qis__foo", .intParam 32)] := by
    decide
  constructor
  · have h := C9_quantum_fn_param_validation.2.1 i32Module (by rw [hcol]; simp)
    rw [hcol] at h
    exact h
  · exact C9_quantum_fn_param_validation.2.2.1 i32Module "__quantum__qis__foo"
      [.intParam 32] (.intParam 32) (by simp [i32Module]) (by decide) (by simp) (by decide)

/-- C10: the inferred shot count (a u64) is emitted into the
`wrap_in_shots` runtime call as a 32-bit integer constant, so the
value passed to the runtime equals the shot count modulo `2 ^ 32`;
counts below `2 ^ 32` pass through unchanged, while a matcher-accepted
count of `2 ^ 32` is silently truncated to 0 rather than rejected. -/
theorem C10_shot_count_truncation :
    (∀ shots : Nat, (wrap_in_shots shots).shots_argument = shots % 2 ^ 32) ∧
      (∀ shots : Nat, shots < 2 ^ 32 → (wrap_in_shots shots).shots_argument = shots) ∧
      (from_basic_block [] truncationShotBlock [] fail_on_nested_function_call).toOption.map
          (fun c => c.shot_count) = some (some 4294967296) ∧
      (wrap_in_shots 4294967296).shots_argument = 0 := by
  refine ⟨fun shots => rfl, fun shots h => ?_, by decide, by decide⟩
  have h2 : shots < 4294967296 := by omega
  simp [wrap_in_shots, const_int, Nat.mod_eq_of_lt h2]

/-- Witness for C10: 1000 shots pass through unchanged. -/
theorem C10_shot_count_truncation_witness :
    (wrap_in_shots 1000).shots_argument = 1000 :=
  C10_shot_count_truncation.2.1 1000 (by decide)

end QcsSdkQir